import Mathlib

/-!
Verification of the data_curation pipeline (SourceCode/DataCuration).

This file gives a shallow embedding, in Lean 4, of the parts of the pipeline
that the checked properties talk about:

* `data_cleaning_homogenization.py`: `safe_mode`, `get_metro_unique_stations`,
  `generate_metro_stations_dataframe` (station resolution and surrogate-uuid
  assignment), `generate_capital_bikes_dataframe` (bike registry),
  `homogenize_capital_dataset` (placeholder bike ids),
  `generate_metro_trips_dataframe` (trip filters),
  `map_trips_foreign_keys_to_uuids`, `generate_demographics_dataframe`
  (median insertion for failed zip codes) and `impute_hidden_values`.
* `feature_engineering.py`: `generate_trips_feature_engineering`.
* `data_acquisition.py`: `get_zip_code_by_coordenates` (retry loop).

Conventions of the embedding:
* pandas floats become `ℚ`; a missing value (NaN) becomes `none` of `Option`.
* Timestamps become epoch seconds (`Int`); `pd.to_datetime` comparison is the
  `Int` order, and the calendar accessors (`dt.month`, `dt.hour`,
  `dt.dayofweek`) are computed from epoch seconds with the standard civil
  calendar algorithm.
* External collaborators (the haversine distance of a row, the seeded
  128-bit uuid stream, the geocode / census responses, and the fitted
  `IterativeImputer`'s predictions for the missing cells) enter as explicit
  function parameters, since their values are produced outside the code
  under verification.
* pandas `Series.mode()` returns the most frequent values sorted ascending,
  and `safe_mode` takes element 0 of that, so the embedded `safeMode` picks
  the smallest value of maximal multiplicity.  `drop_duplicates` keeps the
  first occurrence.  `DataFrame.median` sorts and interpolates the middle.
-/

/-! ## Generic list helpers (pandas primitives) -/

/-- Helper for `dedupKF`: drop every element already seen. -/
def dedupSeen {α : Type} [DecidableEq α] (seen : List α) : List α → List α
  | [] => []
  | x :: xs => if x ∈ seen then dedupSeen seen xs else x :: dedupSeen (x :: seen) xs

/-- `drop_duplicates` with keep="first": keep the first occurrence of every
value, in order of first appearance. -/
def dedupKF {α : Type} [DecidableEq α] (l : List α) : List α :=
  dedupSeen [] l

/-- Multiplicity of a value in a list (`value_counts` of one value). -/
def countV {α : Type} [DecidableEq α] (a : α) (l : List α) : Nat :=
  (l.filter (fun x => x = a)).length

/-- The largest multiplicity occurring in the list. -/
def maxCount {α : Type} [DecidableEq α] (l : List α) : Nat :=
  (l.map (fun v => countV v l)).foldr Nat.max 0

/-- The values of maximal multiplicity, i.e. the multiset underlying
`Series.mode()`. -/
def modeCandidates {α : Type} [DecidableEq α] (l : List α) : List α :=
  l.filter (fun v => countV v l = maxCount l)

/-- Smallest element of a list, `none` on the empty list. -/
def listMin {α : Type} [LinearOrder α] : List α → Option α
  | [] => none
  | x :: xs =>
    match listMin xs with
    | none => some x
    | some y => some (min x y)

/-- Embedding of `safe_mode`: `series.mode()` sorted ascending, element 0;
`none` when the series is empty (all-NaN group). -/
def safeMode {α : Type} [LinearOrder α] [DecidableEq α] (l : List α) : Option α :=
  listMin (modeCandidates l)

/-- Sorted list of the distinct values of a list (group keys of a pandas
`groupby`, which sorts its keys ascending). -/
def sortedDistinct {α : Type} [LinearOrder α] [DecidableEq α] (l : List α) : List α :=
  (dedupKF l).insertionSort (fun a b => a ≤ b)

/-! ## Calendar accessors for epoch-second timestamps -/

/-- Day number (days since 1970-01-01, floored) of an epoch-second timestamp. -/
def daysFromEpoch (t : Int) : Int := t.ediv 86400

/-- Second within the civil day of an epoch-second timestamp. -/
def secondOfDay (t : Int) : Nat := (t.emod 86400).toNat

/-- Civil month (1..12) of a day number, by the standard civil-from-days
algorithm (used here to embed the pandas `dt.month` accessor). -/
def civilMonth (z0 : Int) : Nat :=
  let z := z0 + 719468
  let era := z.ediv 146097
  let doe := (z - era * 146097).toNat
  let yoe := (doe - doe / 1460 + doe / 36524 - doe / 146096) / 365
  let doy := doe - (365 * yoe + yoe / 4 - yoe / 100)
  let mp := (5 * doy + 2) / 153
  if mp < 10 then mp + 3 else mp - 9

/-- `dt.month` of an epoch-second timestamp. -/
def monthOf (t : Int) : Nat := civilMonth (daysFromEpoch t)

/-- `dt.hour` of an epoch-second timestamp. -/
def hourOf (t : Int) : Nat := secondOfDay t / 3600

/-- `dt.dayofweek` (Monday = 0) of an epoch-second timestamp; day 0 of the
epoch is a Thursday, hence the offset 3. -/
def dayOfWeekOf (t : Int) : Nat := ((daysFromEpoch t + 3).emod 7).toNat

/-! ## Feature engineering (`generate_trips_feature_engineering`) -/

/-- A row of a curated monthly trips file (`trip_used_columns`).  The
station/bike uuid references are `Option` because `map_trips_foreign_keys_to_uuids`
writes NaN for a natural key absent from the registry map. -/
structure CuratedTrip where
  tripUuid : String
  startTime : Int
  endTime : Int
  memberType : String
  duration : ℚ
  startStationUuid : Option String
  endStationUuid : Option String
  bikeUuid : Option String
deriving DecidableEq, Inhabited, Repr

/-- The columns of the stations registry used by the coordinate merge. -/
structure StationCoord where
  stationUuid : String
  latitude : ℚ
  longitude : ℚ
deriving DecidableEq, Inhabited, Repr

/-- A row of the feature-engineered output. -/
structure FeatTrip where
  tripUuid : String
  startTime : Int
  endTime : Int
  memberType : String
  duration : ℚ
  startStationUuid : Option String
  endStationUuid : Option String
  bikeUuid : Option String
  latitudeStart : ℚ
  longitudeStart : ℚ
  latitudeEnd : ℚ
  longitudeEnd : ℚ
  tripDurationCategory : Nat
  hourOfDay : Nat
  tripHourCategory : Nat
  dayOfWeek : Nat
  isWeekend : Bool
  month : Nat
  season : Option String
  distanceKm : ℚ
  averageSpeedKmh : ℚ
  tripDistanceCategory : Nat
deriving DecidableEq, Inhabited, Repr

/-- The `month_to_season` dictionary; `Series.map` yields NaN (`none`) for a
key outside the dictionary. -/
def monthToSeason : Nat → Option String
  | 1 => some "Winter"
  | 2 => some "Winter"
  | 3 => some "Spring"
  | 4 => some "Spring"
  | 5 => some "Spring"
  | 6 => some "Summer"
  | 7 => some "Summer"
  | 8 => some "Summer"
  | 9 => some "Autumn"
  | 10 => some "Autumn"
  | 11 => some "Autumn"
  | 12 => some "Winter"
  | _ => none

/-- Inner-join lookup of a station uuid in the stations registry (the
`pd.merge` on `station_uuid`; a `none` reference matches nothing). -/
def findStation (stations : List StationCoord) : Option String → Option StationCoord
  | none => none
  | some s => stations.find? (fun r => r.stationUuid = s)

/-- One joined row after the two merges and all feature columns of
`generate_trips_feature_engineering`, with the haversine distance of the
endpoint coordinates supplied by `dist`.  The sequential `.loc` writes for the
categories amount to the nested conditionals below.  Over `ℚ`, division by a
zero duration gives `0`; the pandas float result for a zero duration (inf or
NaN) never passes the later `<= 50` filter, which `speedKeep` makes explicit. -/
def buildFeatTrip (dist : ℚ → ℚ → ℚ → ℚ → ℚ) (t : CuratedTrip) (s e : StationCoord) :
    FeatTrip :=
  let d : ℚ := ((t.endTime - t.startTime : Int) : ℚ)
  let dk : ℚ := dist s.latitude s.longitude e.latitude e.longitude
  let hr : Nat := hourOf t.startTime
  let dow : Nat := dayOfWeekOf t.startTime
  let mo : Nat := monthOf t.startTime
  { tripUuid := t.tripUuid
    startTime := t.startTime
    endTime := t.endTime
    memberType := t.memberType
    duration := d
    startStationUuid := t.startStationUuid
    endStationUuid := t.endStationUuid
    bikeUuid := t.bikeUuid
    latitudeStart := s.latitude
    longitudeStart := s.longitude
    latitudeEnd := e.latitude
    longitudeEnd := e.longitude
    tripDurationCategory := if 600 ≤ d then 2 else if 300 ≤ d then 1 else 0
    hourOfDay := hr
    tripHourCategory := hr / 4
    dayOfWeek := dow
    isWeekend := decide (5 ≤ dow)
    month := mo
    season := monthToSeason mo
    distanceKm := dk
    averageSpeedKmh := dk / d * 3600
    tripDistanceCategory := if 4 ≤ dk then 2 else if 2 ≤ dk then 1 else 0 }

/-- The joined, feature-enriched rows before the speed filter. -/
def featJoinRows (dist : ℚ → ℚ → ℚ → ℚ → ℚ) (stations : List StationCoord)
    (trips : List CuratedTrip) : List FeatTrip :=
  trips.filterMap (fun t =>
    match findStation stations t.startStationUuid, findStation stations t.endStationUuid with
    | some s, some e => some (buildFeatTrip dist t s e)
    | _, _ => none)

/-- The `average_speed_kmh <= 50` row mask.  A zero recomputed duration gives
an infinite/undefined float speed in pandas, which fails `<= 50`; over `ℚ` the
same exclusion is the explicit `duration ≠ 0` conjunct. -/
def speedKeep (r : FeatTrip) : Bool :=
  decide (r.duration ≠ 0 ∧ r.averageSpeedKmh ≤ 50)

/-- Embedding of `generate_trips_feature_engineering`. -/
def generateTripsFeatureEngineering (dist : ℚ → ℚ → ℚ → ℚ → ℚ)
    (stations : List StationCoord) (trips : List CuratedTrip) : List FeatTrip :=
  (featJoinRows dist stations trips).filter speedKeep

/-! ## Metro trips (`generate_metro_trips_dataframe`) and foreign-key mapping -/

/-- A homogenized MetroBike trip row restricted to `trip_columns`. -/
structure MetroRawTrip where
  tripId : String
  startTime : Int
  endTime : Int
  startStationId : Int
  endStationId : Int
  bikeId : String
  memberType : String
  duration : ℚ
  planDuration : ℚ
deriving DecidableEq, Inhabited, Repr

/-- Embedding of `generate_metro_trips_dataframe`: keep only trips whose
stations and bike appear in the registries, drop duplicates, convert the
duration columns from minutes to seconds, and keep only rows with
`start_time < end_time`. -/
def generateMetroTripsDataframe (df : List MetroRawTrip) (stationIds : List Int)
    (bikeIds : List String) : List MetroRawTrip :=
  let tracked := df.filter (fun t =>
    decide (t.startStationId ∈ stationIds ∧ t.endStationId ∈ stationIds ∧ t.bikeId ∈ bikeIds))
  let dd := dedupKF tracked
  let scaled := dd.map (fun t =>
    { t with duration := t.duration * 60, planDuration := t.planDuration * 60 })
  scaled.filter (fun t => decide (t.startTime < t.endTime))

/-- `Series.map` over the station uuid dictionary built by
`map_trips_foreign_keys_to_uuids`; an absent key maps to NaN (`none`). -/
def lookupIntKey (m : List (Int × String)) (k : Int) : Option String :=
  (m.find? (fun p => p.1 = k)).map (fun p => p.2)

/-- `Series.map` over the bike uuid dictionary. -/
def lookupStrKey (m : List (String × String)) (k : String) : Option String :=
  (m.find? (fun p => p.1 = k)).map (fun p => p.2)

/-- Embedding of the path from a filtered metro trip row to a curated trip
row: the trip uuid stream `g` of `generate_trips_dataframe` (seeded Python
`random` with seed 4) is positional, and
`map_trips_foreign_keys_to_uuids` rewrites the station/bike natural keys
through the registry dictionaries.  Both steps preserve the timestamp
columns of every row. -/
def mapMetroTripsToCurated (g : Nat → String) (stMap : List (Int × String))
    (bkMap : List (String × String)) (l : List MetroRawTrip) : List CuratedTrip :=
  l.enum.map (fun p =>
    { tripUuid := g p.1
      startTime := p.2.startTime
      endTime := p.2.endTime
      memberType := p.2.memberType
      duration := p.2.duration
      startStationUuid := lookupIntKey stMap p.2.startStationId
      endStationUuid := lookupIntKey stMap p.2.endStationId
      bikeUuid := lookupStrKey bkMap p.2.bikeId })

/-! ## Geocode retry loop (`get_zip_code_by_coordenates`) -/

/-- One station's `for retry_i in range(retries)` loop.  `attempt i = none`
models `get_zip_code` raising on attempt `i`; `some z` models success.  The
result is the recorded value (if any) together with the final value of the
Python loop variable `retry_i`: the index of the first success, or
`retries - 1` when every attempt failed. -/
def retryLoop (attempt : Nat → Option String) (retries : Nat) : Option String × Nat :=
  match (List.range retries).find? (fun i => (attempt i).isSome) with
  | some i => (attempt i, i)
  | none => (none, retries - 1)

/-- One station's lookup including the guard
`if (retry_i - 1) == retries: raise RecursionError(...)`, with Python's
integer arithmetic (so `retry_i - 1` can be `-1`). -/
def stationZipLookup (attempt : Nat → Option String) (retries : Nat) :
    Except String (Option String) :=
  let r := retryLoop attempt retries
  if (r.2 : Int) - 1 = (retries : Int) then Except.error "RecursionError" else Except.ok r.1

/-- Embedding of `get_zip_code_by_coordenates` over `n` stations:
`attempts i j` is the outcome of attempt `j` for station `i`.  The returned
association list is `zip_dict`; a station whose lookup never succeeded is
simply absent from it. -/
def getZipCodeByCoordenates (attempts : Nat → Nat → Option String) (retries : Nat)
    (n : Nat) : Except String (List (Nat × String)) :=
  (List.range n).foldl
    (fun acc i =>
      match acc with
      | Except.error e => Except.error e
      | Except.ok zipDict =>
        match stationZipLookup (attempts i) retries with
        | Except.error e => Except.error e
        | Except.ok (some z) => Except.ok (zipDict ++ [(i, z)])
        | Except.ok none => Except.ok zipDict)
    (Except.ok [])

/-! ## Station resolution (`get_metro_unique_stations`,
`generate_metro_stations_dataframe`) -/

/-- A station mention / aggregated station row: the four columns
`station_id, lat, lon, station_name` (coordinates and name may be NaN). -/
structure SRow where
  stationId : Int
  lat : Option ℚ
  lon : Option ℚ
  stationName : Option String
deriving DecidableEq, Inhabited, Repr

/-- `safe_mode` applied to a float column: `Series.mode()` drops NaN. -/
def safeModeOptQ (l : List (Option ℚ)) : Option ℚ :=
  safeMode (l.filterMap id)

/-- The pandas `first` aggregator, which skips NaN. -/
def firstNonNull {α : Type} (l : List (Option α)) : Option α :=
  (l.filterMap id).head?

/-- `groupby("station_id").agg(lat=safe_mode, lon=safe_mode,
station_name="first")`: group keys ascending, one aggregated row per key. -/
def groupAggStations (rows : List SRow) : List SRow :=
  (sortedDistinct (rows.map (fun r => r.stationId))).map (fun s =>
    let grp := rows.filter (fun r => r.stationId = s)
    { stationId := s
      lat := safeModeOptQ (grp.map (fun r => r.lat))
      lon := safeModeOptQ (grp.map (fun r => r.lon))
      stationName := firstNonNull (grp.map (fun r => r.stationName)) })

/-- `sort_values(by=["station_id"])`. -/
def sortByStationId (rows : List SRow) : List SRow :=
  rows.insertionSort (fun a b => a.stationId ≤ b.stationId)

/-- Embedding of `get_metro_unique_stations`: drop duplicate mention rows,
sort by natural id, then aggregate each id group with `safe_mode` / `first`. -/
def getMetroUniqueStations (rows : List SRow) : List SRow :=
  groupAggStations (sortByStationId (dedupKF rows))

/-- The eight station columns of a metro trip row
(`start_station_id, start_lat, start_lon, start_station_name` and the same
for `end_`). -/
structure TripStationsRow where
  startStationId : Int
  startLat : Option ℚ
  startLon : Option ℚ
  startName : Option String
  endStationId : Int
  endLat : Option ℚ
  endLon : Option ℚ
  endName : Option String
deriving DecidableEq, Inhabited, Repr

/-- Projection of a trip row to its start-station mention. -/
def projStart (t : TripStationsRow) : SRow :=
  ⟨t.startStationId, t.startLat, t.startLon, t.startName⟩

/-- Projection of a trip row to its end-station mention. -/
def projEnd (t : TripStationsRow) : SRow :=
  ⟨t.endStationId, t.endLat, t.endLon, t.endName⟩

/-- The middle of `generate_metro_stations_dataframe`: drop duplicate
(start, end) column combinations, resolve start and end mentions separately
with `get_metro_unique_stations`, concatenate, drop duplicate rows, and drop
rows with a NaN coordinate. -/
def combinedStations (trips : List TripStationsRow) : List SRow :=
  let base := dedupKF trips
  let dfStart := getMetroUniqueStations (base.map projStart)
  let dfEnd := getMetroUniqueStations (base.map projEnd)
  (dedupKF (dfStart ++ dfEnd)).filter (fun r => decide (r.lat ≠ none ∧ r.lon ≠ none))

/-- The final `groupby("station_id")` aggregation of
`generate_metro_stations_dataframe`. -/
def metroStationsResolved (trips : List TripStationsRow) : List SRow :=
  groupAggStations (combinedStations trips)

/-- `np.sign` over `ℚ`. -/
def qSign (x : ℚ) : ℚ :=
  if 0 < x then 1 else if x < 0 then -1 else 0

/-- One coordinate of `rectify_coordinates`: flip the sign when the absolute
value is within tolerance of the known city coordinate but the sign differs. -/
def rectifyCoord (cityCoord tol x : ℚ) : ℚ :=
  if |(|x| - |cityCoord|)| ≤ tol ∧ qSign x ≠ qSign cityCoord then -x else x

/-- `rectify_coordinates` applied to one aggregated station row
(tolerance 3, as in the call sites). -/
def rectifySRow (cityLat cityLon : ℚ) (r : SRow) : SRow :=
  { r with
    lat := r.lat.map (fun x => rectifyCoord cityLat 3 x)
    lon := r.lon.map (fun x => rectifyCoord cityLon 3 x) }

/-- Latitude of the Los Angeles city center used for the metro dataset. -/
def cityLatLA : ℚ := (34059753 : ℚ) / 1000000

/-- Longitude of the Los Angeles city center used for the metro dataset. -/
def cityLonLA : ℚ := -((1182375 : ℚ) / 10000)

/-- A row of the final metro stations dataframe. -/
structure StationFinal where
  stationUuid : String
  stationId : Int
  lat : Option ℚ
  lon : Option ℚ
  stationName : Option String
  zipCode : Option String
  city : String
deriving DecidableEq, Inhabited, Repr

/-- Embedding of `generate_metro_stations_dataframe`: resolve stations,
rectify coordinates, attach the reverse-geocoded zip code (`zipOf`, an
external collaborator), the city label, and the positional uuid stream `g`
(Python `random` seeded with the per-entity-type seed 0). -/
def generateMetroStationsDataframe (g : Nat → String)
    (zipOf : Option ℚ → Option ℚ → Option String) (trips : List TripStationsRow) :
    List StationFinal :=
  let resolved := (metroStationsResolved trips).map (rectifySRow cityLatLA cityLonLA)
  resolved.enum.map (fun p =>
    { stationUuid := g p.1
      stationId := p.2.stationId
      lat := p.2.lat
      lon := p.2.lon
      stationName := p.2.stationName
      zipCode := zipOf p.2.lat p.2.lon
      city := "Los Angeles" })

/-- The natural-id-to-surrogate-uuid assignment produced by metro station
resolution. -/
def metroStationUuidAssignment (g : Nat → String)
    (zipOf : Option ℚ → Option ℚ → Option String) (trips : List TripStationsRow) :
    List (Int × String) :=
  (generateMetroStationsDataframe g zipOf trips).map (fun r => (r.stationId, r.stationUuid))

/-! ## Capital bikes (`homogenize_capital_dataset` placeholder ids,
`generate_capital_bikes_dataframe`) -/

/-- The `bike_id, bike_type` columns of a homogenized capital trip row. -/
structure BikeMention where
  bikeId : Option String
  bikeType : Option String
deriving DecidableEq, Inhabited, Repr

/-- The three `.loc` placeholder assignments at the end of
`homogenize_capital_dataset`, applied to one row.  After the first mask
assigns, `bike_id` is no longer NaN, so the masks are disjoint and the
sequential writes amount to this conditional. -/
def fillOneBike (r : BikeMention) : BikeMention :=
  if r.bikeId = none ∧ r.bikeType = some "classic_bike" then
    ⟨some "0000_classic", r.bikeType⟩
  else if r.bikeId = none ∧ r.bikeType = some "electric_bike" then
    ⟨some "0000_electric", r.bikeType⟩
  else if r.bikeId = none ∧ r.bikeType = some "docked_bike" then
    ⟨some "0000_docked", r.bikeType⟩
  else r

/-- The placeholder-filling block of `homogenize_capital_dataset` restricted
to the bike columns. -/
def fillMissingBikeIds (rows : List BikeMention) : List BikeMention :=
  rows.map fillOneBike

/-- `astype(str)` on an optional string column: NaN prints as "nan". -/
def optStr : Option String → String
  | some s => s
  | none => "nan"

/-- A grouped bike registry row. -/
structure BikeReg where
  bikeId : String
  bikeType : Option String
deriving DecidableEq, Inhabited, Repr

/-- `safe_mode` on the bike type column (mode drops NaN; string modes sort
lexicographically ascending and element 0 is taken). -/
def safeModeOptStr (l : List (Option String)) : Option String :=
  safeMode (l.filterMap id)

/-- Number of decimal digit characters of a string
(`Series.str.count(r"\d")`). -/
def digitCount (s : String) : Nat :=
  (s.toList.filter (fun c => c.isDigit)).length

/-- `df_capital[["bike_id","bike_type"]].drop_duplicates()`, `astype(str)` on
the id, then `groupby("bike_id").agg(safe_mode)`. -/
def capitalBikesGrouped (rows : List BikeMention) : List BikeReg :=
  let d := dedupKF rows
  let d2 := d.map (fun r => (⟨optStr r.bikeId, r.bikeType⟩ : BikeReg))
  (sortedDistinct (d2.map (fun r => r.bikeId))).map (fun s =>
    ⟨s, safeModeOptStr ((d2.filter (fun r => r.bikeId = s)).map (fun r => r.bikeType))⟩)

/-- Homogenize the capital bike type vocabulary to the metro one. -/
def renameBikeType : Option String → Option String
  | some "classic_bike" => some "standard"
  | some "docked_bike" => some "standard"
  | some "electric_bike" => some "electric"
  | t => t

/-- Embedding of `generate_capital_bikes_dataframe` up to uuid assignment:
group mentions, drop ids with fewer than 4 digit characters (test ids), fill
a NaN type with "classic_bike", and homogenize the type vocabulary. -/
def capitalBikesRegistry (rows : List BikeMention) : List BikeReg :=
  let grouped := capitalBikesGrouped rows
  let filtered := grouped.filter (fun b => decide (4 ≤ digitCount b.bikeId))
  let filled := filtered.map (fun b =>
    if b.bikeType = none then ⟨b.bikeId, some "classic_bike"⟩ else b)
  filled.map (fun b => ⟨b.bikeId, renameBikeType b.bikeType⟩)

/-- The natural-id-to-surrogate-uuid assignment of the capital bike registry
(Python `random` seeded with the per-entity-type seed 3, positional). -/
def capitalBikeUuidAssignment (g : Nat → String) (rows : List BikeMention) :
    List (String × String) :=
  (capitalBikesRegistry rows).enum.map (fun p => (p.2.bikeId, g p.1))

/-! ## Demographics (`generate_demographics_dataframe`,
`impute_hidden_values`) -/

/-- A demographics row after `pd.to_numeric`: the zip code key and the
indicator columns (`iloc[:, 2:]` once the uuid column is present); an
indicator may be NaN. -/
structure DemoRow where
  zipCode : Int
  indicators : List (Option ℚ)
deriving DecidableEq, Inhabited, Repr

/-- Replacing a negative sentinel with NaN (`df.loc[df[c] < 0, c] = np.nan`
for every column that has a negative value amounts to this cellwise map). -/
def cleanCell : Option ℚ → Option ℚ
  | some v => if v < 0 then none else some v
  | none => none

/-- First step of `impute_hidden_values`: negative sentinels become NaN. -/
def cleanNegatives (rows : List DemoRow) : List DemoRow :=
  rows.map (fun r => ⟨r.zipCode, r.indicators.map cleanCell⟩)

/-- `df.iloc[:, 2:].sum(axis=1)` (pandas sums skip NaN). -/
def rowIndicatorSum (r : DemoRow) : ℚ :=
  (r.indicators.filterMap id).sum

/-- Second step of `impute_hidden_values`: a row whose indicator sum is zero
is a "no resident population" area and has its NaN cells filled with 0. -/
def fillZeroRows (rows : List DemoRow) : List DemoRow :=
  rows.map (fun r =>
    if rowIndicatorSum r = 0 then
      ⟨r.zipCode, r.indicators.map (fun c => some (c.getD 0))⟩
    else r)

/-- Third step: `IterativeImputer.fit_transform` keeps every observed value
and writes the fitted prediction into every missing cell; `fill i j` is the
prediction of the fitted imputer for the cell at row `i`, indicator `j`. -/
def applyImputer (fill : Nat → Nat → ℚ) (rows : List DemoRow) : List DemoRow :=
  rows.enum.map (fun p =>
    ⟨p.2.zipCode, p.2.indicators.enum.map (fun q => some (q.2.getD (fill p.1 q.1)))⟩)

/-- Embedding of `impute_hidden_values`. -/
def imputeHiddenValues (fill : Nat → Nat → ℚ) (rows : List DemoRow) : List DemoRow :=
  applyImputer fill (fillZeroRows (cleanNegatives rows))

/-- Every present indicator value of every row is non-negative. -/
def demoNonneg (rows : List DemoRow) : Bool :=
  rows.all (fun r => r.indicators.all (fun c =>
    match c with
    | some v => decide (0 ≤ v)
    | none => true))

/-- Every indicator cell of the row is literally `some 0`. -/
def allZeroRow (r : DemoRow) : Bool :=
  r.indicators.all (fun c => c = some 0)

/-! ## Median insertion for failed zip codes
(`generate_demographics_dataframe`) -/

/-- A demographics row as assembled from the census responses (fully
numeric after `pd.to_numeric`). -/
structure ZipRow where
  zipCode : Int
  indicators : List ℚ
deriving DecidableEq, Inhabited, Repr

/-- The rows of zip codes whose census query returned data, in request
order. -/
def resolvedRows (census : Int → Option (List ℚ)) (zips : List Int) : List ZipRow :=
  zips.filterMap (fun z => (census z).map (fun d => (⟨z, d⟩ : ZipRow)))

/-- `failed_zip_codes`, in request order. -/
def failedZipCodes (census : Int → Option (List ℚ)) (zips : List Int) : List Int :=
  zips.filter (fun z => (census z).isNone)

/-- The values of indicator column `c`. -/
def colValues (rows : List ZipRow) (c : Nat) : List ℚ :=
  rows.filterMap (fun r => r.indicators[c]?)

/-- The middle of an already sorted sequence: the middle element for odd
length, the mean of the two middle elements for even length, NaN (`none`)
when empty. -/
def medianOfSorted (s : List ℚ) : Option ℚ :=
  if s.length = 0 then none
  else if s.length % 2 = 1 then some (s.getD (s.length / 2) 0)
  else some ((s.getD (s.length / 2 - 1) 0 + s.getD (s.length / 2) 0) / 2)

/-- `Series.median()`: sort ascending and take the interpolated middle. -/
def pandasMedian (l : List ℚ) : Option ℚ :=
  medianOfSorted (l.insertionSort (fun a b => a ≤ b))

/-- `df_demographics.median()` restricted to `w` indicator columns. -/
def medianRow (w : Nat) (rows : List ZipRow) : List ℚ :=
  (List.range w).map (fun c => (pandasMedian (colValues rows c)).getD 0)

/-- The `for zip_code in failed_zip_codes` loop: each failed zip code
appends a row equal to the column-wise median of the dataframe as it stands
at that iteration (including any median rows appended earlier). -/
def insertMedianRows (w : Nat) (resolved : List ZipRow) (failed : List Int) : List ZipRow :=
  failed.foldl (fun acc z => acc ++ [⟨z, medianRow w acc⟩]) resolved

/-! ## Claim-specific definitions and concrete inputs -/

/-- Lookup of the aggregated row of a station natural id. -/
def lookupStation (s : Int) (rows : List SRow) : Option SRow :=
  rows.find? (fun r => r.stationId = s)

/-- Every prediction of the imputer is non-negative. -/
def fillNonnegP (fill : Nat → Nat → ℚ) : Prop := ∀ i j, 0 ≤ fill i j

/-- The natural ids of the capital bike registry. -/
def registryIds (rows : List BikeMention) : List String :=
  (capitalBikesRegistry rows).map (fun b => b.bikeId)

/-- An imputer whose fitted predictions are negative (nothing in the code
constrains the `BayesianRidge` regression output). -/
def c1BadFill : Nat → Nat → ℚ := fun _ _ => -1

/-- A table with one suppressed sentinel next to a positive indicator. -/
def c1BadRows : List DemoRow := [⟨11, [some (-5), some 3]⟩]

/-- An imputer whose fitted predictions are non-negative. -/
def c1GoodFill : Nat → Nat → ℚ := fun _ _ => 7

/-- A table exercising both the sentinel replacement and the zero-sum row. -/
def c1GoodRows : List DemoRow := [⟨11, [some (-3), some 5]⟩, ⟨12, [none, some 0]⟩]

/-- A constant 1 km haversine distance. -/
def exDist : ℚ → ℚ → ℚ → ℚ → ℚ := fun _ _ _ _ => 1

/-- A one-station registry. -/
def exStations : List StationCoord := [⟨"S1", 0, 0⟩]

/-- Three trips over 1 km with durations 3600 s, 60 s and 72 s, i.e. implied
speeds 1 km/h, 60 km/h and exactly 50 km/h. -/
def exTrips : List CuratedTrip :=
  [⟨"T1", 0, 3600, "member", 0, some "S1", some "S1", some "B1"⟩,
   ⟨"T2", 0, 60, "member", 0, some "S1", some "S1", some "B1"⟩,
   ⟨"T3", 0, 72, "member", 0, some "S1", some "S1", some "B1"⟩]

/-- The joined feature rows of the example trips. -/
def exFeatRows : List FeatTrip := featJoinRows exDist exStations exTrips

/-- The feature-engine output of the example trips. -/
def exFeatOut : List FeatTrip := generateTripsFeatureEngineering exDist exStations exTrips

/-- One raw metro trip (10 minutes, valid stations and bike). -/
def c4Raw : List MetroRawTrip := [⟨"t1", 0, 600, 1, 1, "1234", "member", 10, 30⟩]

/-- The curated trips derived from `c4Raw`. -/
def c4Curated : List CuratedTrip :=
  mapMetroTripsToCurated (fun _ => "T1") [(1, "S1")] [("1234", "B1")]
    (generateMetroTripsDataframe c4Raw [1] ["1234"])

/-- The feature-engine output of the composed example pipeline. -/
def c4Out : List FeatTrip := generateTripsFeatureEngineering exDist exStations c4Curated

/-- Station 1 observed twice at (2, 2) and once at (1, 1). -/
def c5Mentions : List SRow :=
  [⟨1, some 2, some 2, some "A"⟩, ⟨1, some 2, some 2, some "A"⟩,
   ⟨1, some 1, some 1, some "A"⟩]

/-- A fixed uuid stream for the witness. -/
def c6Stream : Nat → String := fun n => String.append "uuid" (Nat.repr n)

/-- A geocode collaborator returning no zip code. -/
def c6Zip : Option ℚ → Option ℚ → Option String := fun _ _ => none

/-- Two metro trip rows whose endpoints map to the same natural ids. -/
def c6TripsA : List TripStationsRow :=
  [⟨1, some 5, some 6, some "A", 2, some 7, some 8, some "B"⟩,
   ⟨1, some 5, some 9, some "C", 2, some 7, some 8, some "D"⟩]

/-- The same rows in the opposite input order. -/
def c6TripsB : List TripStationsRow :=
  [⟨1, some 5, some 9, some "C", 2, some 7, some 8, some "D"⟩,
   ⟨1, some 5, some 6, some "A", 2, some 7, some 8, some "B"⟩]

/-- Three capital bike mentions, two of them for the same natural id. -/
def c6BikesA : List BikeMention :=
  [⟨some "1234", some "classic_bike"⟩, ⟨some "1234", some "electric_bike"⟩,
   ⟨some "5678", none⟩]

/-- The same mentions with the rows of bike 1234 swapped. -/
def c6BikesB : List BikeMention :=
  [⟨some "1234", some "electric_bike"⟩, ⟨some "1234", some "classic_bike"⟩,
   ⟨some "5678", none⟩]

/-- A row whose cleaned indicators sum to zero. -/
def c8Fill : Nat → Nat → ℚ := fun _ _ => 9

/-- One zero-population row: a suppressed sentinel, a zero and a NaN. -/
def c8Rows : List DemoRow := [⟨21, [some (-2), some 0, none]⟩]

/-- A census collaborator answering for zip codes 1 and 2 only. -/
def c9Census : Int → Option (List ℚ) := fun z =>
  if z = 1 then some [1, 10] else if z = 2 then some [3, 20] else none

/-- Four requested zip codes, two of which fail. -/
def c9Zips : List Int := [1, 2, 3, 4]

/-- One capital trip row with a missing bike id of known type. -/
def c10Rows : List BikeMention := [⟨none, some "classic_bike"⟩]

/-! ## Helper lemmas -/

theorem mem_dedupSeen {α : Type} [DecidableEq α] (a : α) :
    ∀ (l seen : List α), a ∈ dedupSeen seen l ↔ a ∈ l ∧ a ∉ seen := by
  intro l
  induction l with
  | nil => intro seen; simp [dedupSeen]
  | cons x xs ih =>
    intro seen
    by_cases hx : x ∈ seen
    · rw [dedupSeen, if_pos hx, ih seen]
      constructor
      · rintro ⟨h1, h2⟩; exact ⟨List.mem_cons_of_mem x h1, h2⟩
      · rintro ⟨h1, h2⟩
        rcases List.mem_cons.1 h1 with rfl | h1
        · exact absurd hx h2
        · exact ⟨h1, h2⟩
    · rw [dedupSeen, if_neg hx]
      simp only [List.mem_cons, ih (x :: seen), List.mem_cons]
      constructor
      · rintro (rfl | ⟨h1, h2⟩)
        · exact ⟨Or.inl rfl, hx⟩
        · exact ⟨Or.inr h1, fun hs => h2 (Or.inr hs)⟩
      · rintro ⟨rfl | h1, h2⟩
        · exact Or.inl rfl
        · by_cases hax : a = x
          · exact Or.inl hax
          · exact Or.inr ⟨h1, fun hs => (hs.elim hax h2)⟩

theorem mem_dedupKF {α : Type} [DecidableEq α] (l : List α) (a : α) :
    a ∈ dedupKF l ↔ a ∈ l := by
  rw [dedupKF, mem_dedupSeen]
  simp

theorem nodup_dedupSeen {α : Type} [DecidableEq α] :
    ∀ (l seen : List α), (dedupSeen seen l).Nodup := by
  intro l
  induction l with
  | nil => intro seen; simp [dedupSeen]
  | cons x xs ih =>
    intro seen
    by_cases hx : x ∈ seen
    · rw [dedupSeen, if_pos hx]; exact ih seen
    · rw [dedupSeen, if_neg hx]
      refine List.nodup_cons.2 ⟨?_, ih (x :: seen)⟩
      intro hmem
      have := (mem_dedupSeen x xs (x :: seen)).1 hmem
      exact this.2 (List.mem_cons_self x seen)

theorem nodup_dedupKF {α : Type} [DecidableEq α] (l : List α) : (dedupKF l).Nodup :=
  nodup_dedupSeen l []

theorem dedupKF_perm_of_perm {α : Type} [DecidableEq α] {l₁ l₂ : List α} (h : l₁.Perm l₂) :
    (dedupKF l₁).Perm (dedupKF l₂) := by
  refine (List.perm_ext_iff_of_nodup (nodup_dedupKF l₁) (nodup_dedupKF l₂)).2 (fun a => ?_)
  rw [mem_dedupKF, mem_dedupKF]
  exact h.mem_iff

theorem countV_eq_of_perm {α : Type} [DecidableEq α] (a : α) {l₁ l₂ : List α}
    (h : l₁.Perm l₂) : countV a l₁ = countV a l₂ :=
  (h.filter (fun x => decide (x = a))).length_eq

theorem foldr_max_eq_of_perm {l₁ l₂ : List Nat} (h : l₁.Perm l₂) :
    l₁.foldr Nat.max 0 = l₂.foldr Nat.max 0 := by
  induction h with
  | nil => rfl
  | cons x h ih => simp [List.foldr_cons, ih]
  | swap x y l => simp [List.foldr_cons, Nat.max_left_comm]
  | trans h₁ h₂ ih₁ ih₂ => exact ih₁.trans ih₂

theorem maxCount_eq_of_perm {α : Type} [DecidableEq α] {l₁ l₂ : List α} (h : l₁.Perm l₂) :
    maxCount l₁ = maxCount l₂ := by
  unfold maxCount
  have h₁ : l₂.map (fun v => countV v l₁) = l₂.map (fun v => countV v l₂) :=
    List.map_congr_left (fun a _ => countV_eq_of_perm a h)
  exact foldr_max_eq_of_perm (by rw [← h₁]; exact (h.map (fun v => countV v l₁)))

theorem modeCandidates_perm_of_perm {α : Type} [DecidableEq α] {l₁ l₂ : List α}
    (h : l₁.Perm l₂) : (modeCandidates l₁).Perm (modeCandidates l₂) := by
  unfold modeCandidates
  have h₂ : l₂.filter (fun v => decide (countV v l₁ = maxCount l₁)) =
      l₂.filter (fun v => decide (countV v l₂ = maxCount l₂)) :=
    List.filter_congr (fun v _ => by rw [countV_eq_of_perm v h, maxCount_eq_of_perm h])
  exact h₂ ▸ (h.filter (fun v => decide (countV v l₁ = maxCount l₁)))

theorem listMin_eq_of_perm {α : Type} [LinearOrder α] {l₁ l₂ : List α} (h : l₁.Perm l₂) :
    listMin l₁ = listMin l₂ := by
  induction h with
  | nil => rfl
  | cons x h ih => simp [listMin, ih]
  | swap x y l =>
    cases hm : listMin l with
    | none => simp [listMin, hm, min_comm]
    | some z => simp [listMin, hm, min_left_comm]
  | trans h₁ h₂ ih₁ ih₂ => exact ih₁.trans ih₂

theorem safeMode_eq_of_perm {α : Type} [LinearOrder α] [DecidableEq α] {l₁ l₂ : List α}
    (h : l₁.Perm l₂) : safeMode l₁ = safeMode l₂ :=
  listMin_eq_of_perm (modeCandidates_perm_of_perm h)

theorem mem_sortedDistinct {α : Type} [LinearOrder α] [DecidableEq α] {l : List α} {a : α} :
    a ∈ sortedDistinct l ↔ a ∈ l := by
  unfold sortedDistinct
  rw [(List.perm_insertionSort _ (dedupKF l)).mem_iff, mem_dedupKF]

theorem sortedDistinct_eq_of_mem_iff {α : Type} [LinearOrder α] [DecidableEq α]
    {l₁ l₂ : List α} (h : ∀ a, a ∈ l₁ ↔ a ∈ l₂) : sortedDistinct l₁ = sortedDistinct l₂ := by
  have hperm : (dedupKF l₁).Perm (dedupKF l₂) := by
    refine (List.perm_ext_iff_of_nodup (nodup_dedupKF l₁) (nodup_dedupKF l₂)).2 (fun a => ?_)
    rw [mem_dedupKF, mem_dedupKF]; exact h a
  exact List.eq_of_perm_of_sorted
    ((List.perm_insertionSort _ _).trans (hperm.trans (List.perm_insertionSort _ _).symm))
    (List.sorted_insertionSort _ _) (List.sorted_insertionSort _ _)

theorem mem_featJoinRows {dist : ℚ → ℚ → ℚ → ℚ → ℚ} {stations : List StationCoord}
    {trips : List CuratedTrip} {r : FeatTrip} :
    r ∈ featJoinRows dist stations trips ↔
      ∃ t ∈ trips, ∃ s e, findStation stations t.startStationUuid = some s ∧
        findStation stations t.endStationUuid = some e ∧ r = buildFeatTrip dist t s e := by
  unfold featJoinRows
  rw [List.mem_filterMap]
  constructor
  · rintro ⟨t, ht, hf⟩
    cases hs : findStation stations t.startStationUuid with
    | none => rw [hs] at hf; simp at hf
    | some s =>
      cases he : findStation stations t.endStationUuid with
      | none => rw [hs, he] at hf; simp at hf
      | some e =>
        rw [hs, he] at hf
        simp only [Option.some.injEq] at hf
        exact ⟨t, ht, s, e, hs, he, hf.symm⟩
  · rintro ⟨t, ht, s, e, hs, he, rfl⟩
    refine ⟨t, ht, ?_⟩
    rw [hs, he]

theorem buildFeatTrip_speed_eq (dist : ℚ → ℚ → ℚ → ℚ → ℚ) (t : CuratedTrip)
    (s e : StationCoord) :
    (buildFeatTrip dist t s e).averageSpeedKmh =
      (buildFeatTrip dist t s e).distanceKm / (buildFeatTrip dist t s e).duration * 3600 := rfl

/-- Claim C3: every row of the feature-engine output has average speed at
most 50 km/h; every joined trip row whose implied speed is strictly greater
than 50 km/h is absent from the output; and a joined row at exactly
50 km/h is kept — the `average_speed_kmh <= 50` filter is inclusive at the
boundary. -/
theorem speed_ceiling (dist : ℚ → ℚ → ℚ → ℚ → ℚ) (stations : List StationCoord)
    (trips : List CuratedTrip) :
    (∀ r ∈ generateTripsFeatureEngineering dist stations trips, r.averageSpeedKmh ≤ 50) ∧
    (∀ r ∈ featJoinRows dist stations trips, 50 < r.averageSpeedKmh →
      r ∉ generateTripsFeatureEngineering dist stations trips) ∧
    (∀ r ∈ featJoinRows dist stations trips, r.averageSpeedKmh = 50 →
      r ∈ generateTripsFeatureEngineering dist stations trips) := by
  refine ⟨?_, ?_, ?_⟩
  · intro r hr
    have hk := (List.mem_filter.1 hr).2
    unfold speedKeep at hk
    exact (of_decide_eq_true hk).2
  · intro r _ hgt hmem
    have hk := (List.mem_filter.1 hmem).2
    unfold speedKeep at hk
    exact absurd ((of_decide_eq_true hk).2) (not_le.2 hgt)
  · intro r hr heq
    refine List.mem_filter.2 ⟨hr, ?_⟩
    unfold speedKeep
    refine decide_eq_true ⟨?_, le_of_eq heq⟩
    obtain ⟨t, ht, s, e, hs, he, rfl⟩ := mem_featJoinRows.1 hr
    intro hd0
    rw [buildFeatTrip_speed_eq, hd0, div_zero, zero_mul] at heq
    norm_num at heq

/-- Claim C7: in every output row the season is the fixed month-to-season
dictionary applied to the derived month (which is `dt.month` of the start
time), and the dictionary sends 12, 1, 2 to Winter, 3-5 to Spring, 6-8 to
Summer and 9-11 to Autumn; in particular December is Winter, not Autumn. -/
theorem season_mapping (dist : ℚ → ℚ → ℚ → ℚ → ℚ) (stations : List StationCoord)
    (trips : List CuratedTrip) :
    (∀ r ∈ generateTripsFeatureEngineering dist stations trips,
      r.season = monthToSeason r.month ∧ r.month = monthOf r.startTime) ∧
    (monthToSeason 12 = some "Winter" ∧ monthToSeason 1 = some "Winter" ∧
      monthToSeason 2 = some "Winter") ∧
    (monthToSeason 3 = some "Spring" ∧ monthToSeason 4 = some "Spring" ∧
      monthToSeason 5 = some "Spring") ∧
    (monthToSeason 6 = some "Summer" ∧ monthToSeason 7 = some "Summer" ∧
      monthToSeason 8 = some "Summer") ∧
    (monthToSeason 9 = some "Autumn" ∧ monthToSeason 10 = some "Autumn" ∧
      monthToSeason 11 = some "Autumn") := by
  refine ⟨?_, by decide, by decide, by decide, by decide⟩
  intro r hr
  have hr2 : r ∈ featJoinRows dist stations trips := (List.mem_filter.1 hr).1
  obtain ⟨t, ht, s, e, hs, he, rfl⟩ := mem_featJoinRows.1 hr2
  exact ⟨rfl, rfl⟩

theorem speed_ceiling_witness :
    ((exFeatRows.getD 0 default) ∈ exFeatOut ∧
      (exFeatRows.getD 0 default).averageSpeedKmh ≤ 50) ∧
    ((exFeatRows.getD 1 default) ∈ exFeatRows ∧
      50 < (exFeatRows.getD 1 default).averageSpeedKmh ∧
      (exFeatRows.getD 1 default) ∉ exFeatOut) ∧
    ((exFeatRows.getD 2 default) ∈ exFeatRows ∧
      (exFeatRows.getD 2 default).averageSpeedKmh = 50 ∧
      (exFeatRows.getD 2 default) ∈ exFeatOut) := by
  have h0 : (exFeatRows.getD 0 default) ∈ exFeatOut := by
    norm_num [exFeatRows, exFeatOut, generateTripsFeatureEngineering, featJoinRows, exDist,
      exStations, exTrips, buildFeatTrip, findStation, speedKeep, List.filterMap, List.find?,
      List.filter]
  have h1 : (exFeatRows.getD 1 default) ∈ exFeatRows := by
    norm_num [exFeatRows, featJoinRows, exDist, exStations, exTrips, buildFeatTrip,
      findStation, List.filterMap, List.find?]
  have h1s : 50 < (exFeatRows.getD 1 default).averageSpeedKmh := by
    norm_num [exFeatRows, featJoinRows, exDist, exStations, exTrips, buildFeatTrip,
      findStation, List.filterMap, List.find?]
  have h2 : (exFeatRows.getD 2 default) ∈ exFeatRows := by
    norm_num [exFeatRows, featJoinRows, exDist, exStations, exTrips, buildFeatTrip,
      findStation, List.filterMap, List.find?]
  have h2s : (exFeatRows.getD 2 default).averageSpeedKmh = 50 := by
    norm_num [exFeatRows, featJoinRows, exDist, exStations, exTrips, buildFeatTrip,
      findStation, List.filterMap, List.find?]
  exact ⟨⟨h0, (speed_ceiling exDist exStations exTrips).1 _ h0⟩,
    ⟨h1, h1s, (speed_ceiling exDist exStations exTrips).2.1 _ h1 h1s⟩,
    ⟨h2, h2s, (speed_ceiling exDist exStations exTrips).2.2 _ h2 h2s⟩⟩

theorem season_mapping_witness :
    (exFeatRows.getD 0 default) ∈ exFeatOut ∧
    (exFeatRows.getD 0 default).season = monthToSeason (exFeatRows.getD 0 default).month ∧
    (exFeatRows.getD 0 default).month = monthOf (exFeatRows.getD 0 default).startTime := by
  have h0 : (exFeatRows.getD 0 default) ∈ exFeatOut := by
    norm_num [exFeatRows, exFeatOut, generateTripsFeatureEngineering, featJoinRows, exDist,
      exStations, exTrips, buildFeatTrip, findStation, speedKeep, List.filterMap, List.find?,
      List.filter]
  have h := (season_mapping exDist exStations exTrips).1 _ h0
  exact ⟨h0, h.1, h.2⟩

theorem stationZipLookup_isOk (attempt : Nat → Option String) (retries : Nat) :
    (stationZipLookup attempt retries).isOk = true := by
  have hsnd : ((retryLoop attempt retries).2 : Int) - 1 ≠ (retries : Int) := by
    unfold retryLoop
    cases hf : (List.range retries).find? (fun i => (attempt i).isSome) with
    | none =>
      show (((retries - 1 : Nat) : Int) - 1 ≠ (retries : Int))
      omega
    | some i =>
      have hlt : i < retries := List.mem_range.1 (List.mem_of_find?_eq_some hf)
      show ((i : Int) - 1 ≠ (retries : Int))
      omega
  show (if ((retryLoop attempt retries).2 : Int) - 1 = (retries : Int) then
      (Except.error "RecursionError" : Except String (Option String))
    else Except.ok (retryLoop attempt retries).1).isOk = true
  rw [if_neg hsnd]
  rfl

theorem getZipFold_isOk (attempts : Nat → Nat → Option String) (retries : Nat) :
    ∀ (l : List Nat) (acc : List (Nat × String)),
      ((l.foldl
        (fun acc i =>
          match acc with
          | Except.error e => Except.error e
          | Except.ok zipDict =>
            match stationZipLookup (attempts i) retries with
            | Except.error e => Except.error e
            | Except.ok (some z) => Except.ok (zipDict ++ [(i, z)])
            | Except.ok none => Except.ok zipDict)
        (Except.ok acc) : Except String (List (Nat × String))).isOk) = true
  | [], acc => rfl
  | i :: l, acc => by
    rw [List.foldl_cons]
    have hok := stationZipLookup_isOk (attempts i) retries
    cases hz : stationZipLookup (attempts i) retries with
    | error e => rw [hz] at hok; simp [Except.isOk, Except.toBool] at hok
    | ok v =>
      cases v with
      | some z => exact getZipFold_isOk attempts retries l (acc ++ [(i, z)])
      | none => exact getZipFold_isOk attempts retries l acc

/-- Claim C2: the claim records the documented behaviour (the docstring says
a `RecursionError` is raised once a station exhausts its retries), but the
guard `if (retry_i - 1) == retries` is unreachable: after the loop,
`retry_i <= retries - 1`, so `retry_i - 1` can never equal `retries`.  With
the default 5 retries and a station failing on all 5 attempts, the function
returns without raising and the station is simply missing from `zip_dict`;
in general the embedded function never returns an error. -/
theorem get_zip_code_retry_guard_unreachable :
    getZipCodeByCoordenates (fun _ _ => none) 5 1 = Except.ok [] ∧
    ∀ (attempts : Nat → Nat → Option String) (retries n : Nat),
      (getZipCodeByCoordenates attempts retries n).isOk = true := by
  constructor
  · rfl
  · intro attempts retries n
    unfold getZipCodeByCoordenates
    exact getZipFold_isOk attempts retries (List.range n) []

theorem cleanCell_nonneg (c : Option ℚ) (v : ℚ) (h : cleanCell c = some v) : 0 ≤ v := by
  cases c with
  | none => simp [cleanCell] at h
  | some w =>
    by_cases hw : w < 0
    · simp [cleanCell, hw] at h
    · simp [cleanCell, hw] at h
      exact h ▸ not_lt.1 hw

theorem fillZero_clean_cells_nonneg (rows : List DemoRow) (r : DemoRow)
    (hr : r ∈ fillZeroRows (cleanNegatives rows)) (c : Option ℚ) (hc : c ∈ r.indicators)
    (v : ℚ) (hv : c = some v) : 0 ≤ v := by
  unfold fillZeroRows cleanNegatives at hr
  obtain ⟨r1, hr1, rfl⟩ := List.mem_map.1 hr
  obtain ⟨r0, _, rfl⟩ := List.mem_map.1 hr1
  by_cases hs : rowIndicatorSum ⟨r0.zipCode, r0.indicators.map cleanCell⟩ = 0
  · rw [if_pos hs] at hc
    simp only [List.map_map, List.mem_map] at hc
    obtain ⟨c0, _, rfl⟩ := hc
    simp only [Function.comp_apply, Option.some.injEq] at hv
    cases hcl : cleanCell c0 with
    | none =>
      rw [hcl, Option.getD_none] at hv
      exact le_of_eq hv
    | some w =>
      have hnn := cleanCell_nonneg c0 w hcl
      rw [hcl, Option.getD_some] at hv
      exact hv ▸ hnn
  · rw [if_neg hs] at hc
    simp only [List.mem_map] at hc
    obtain ⟨c0, _, rfl⟩ := hc
    exact cleanCell_nonneg c0 v hv

/-- Claim C1 (amended): after `impute_hidden_values`, every cell the imputer
did not fill is non-negative (sentinels became missing, zero-population rows
became zero, observed values pass through), and whenever the fitted
imputer's predictions are non-negative the whole table is non-negative.  The
code contains no clamp, so non-negativity of the imputed cells themselves
depends entirely on the regression output. -/
theorem imputation_nonneg_of_fill_nonneg (fill : Nat → Nat → ℚ) (rows : List DemoRow)
    (h : fillNonnegP fill) : demoNonneg (imputeHiddenValues fill rows) = true := by
  unfold demoNonneg
  rw [List.all_eq_true]
  intro r hr
  rw [List.all_eq_true]
  intro c hc
  unfold imputeHiddenValues applyImputer at hr
  obtain ⟨p, hp, rfl⟩ := List.mem_map.1 hr
  simp only [List.mem_map] at hc
  obtain ⟨q, hq, rfl⟩ := hc
  cases hcell : q.2 with
  | none =>
    simp only [hcell, Option.getD_none]
    exact decide_eq_true (h p.1 q.1)
  | some w =>
    have hw : 0 ≤ w :=
      fillZero_clean_cells_nonneg rows p.2 (List.snd_mem_of_mem_enum hp) q.2
        (List.snd_mem_of_mem_enum hq) w hcell
    simp only [hcell, Option.getD_some]
    exact decide_eq_true hw

/-- Claim C1 (counterexample): with a table holding the sentinel -5 next to
the value 3 and an imputer whose fitted prediction for the missing cell is
-1 (a value the unconstrained `BayesianRidge` regression can produce, since
`IterativeImputer` is created without `min_value`), the imputed table
contains a negative indicator. -/
theorem imputation_nonneg_counterexample :
    imputeHiddenValues c1BadFill c1BadRows = [⟨11, [some (-1), some 3]⟩] ∧
    demoNonneg (imputeHiddenValues c1BadFill c1BadRows) = false := by
  constructor
  · norm_num [imputeHiddenValues, applyImputer, fillZeroRows, cleanNegatives, cleanCell,
      rowIndicatorSum, c1BadFill, c1BadRows, List.filterMap, List.enum, List.enumFrom]
  · norm_num [imputeHiddenValues, applyImputer, fillZeroRows, cleanNegatives, cleanCell,
      rowIndicatorSum, demoNonneg, c1BadFill, c1BadRows, List.filterMap, List.enum,
      List.enumFrom, List.all]

theorem imputation_nonneg_witness :
    fillNonnegP c1GoodFill ∧ demoNonneg (imputeHiddenValues c1GoodFill c1GoodRows) = true := by
  have hf : fillNonnegP c1GoodFill := by
    intro i j
    norm_num [c1GoodFill]
  exact ⟨hf, imputation_nonneg_of_fill_nonneg c1GoodFill c1GoodRows hf⟩

theorem eq_zero_of_mem_of_sum_eq_zero :
    ∀ (l : List ℚ), (∀ x ∈ l, 0 ≤ x) → l.sum = 0 → ∀ x ∈ l, x = 0
  | [], _, _, x, hx => absurd hx (List.not_mem_nil x)
  | a :: l, hnn, hsum, x, hx => by
    rw [List.sum_cons] at hsum
    have hl : 0 ≤ l.sum := List.sum_nonneg (fun y hy => hnn y (List.mem_cons_of_mem a hy))
    have ha : 0 ≤ a := hnn a (List.mem_cons_self a l)
    have ha0 : a = 0 := by linarith
    have hs0 : l.sum = 0 := by linarith
    rcases List.mem_cons.1 hx with rfl | hx
    · exact ha0
    · exact eq_zero_of_mem_of_sum_eq_zero l (fun y hy => hnn y (List.mem_cons_of_mem a hy))
        hs0 x hx

theorem imputeHiddenValues_getElem? (fill : Nat → Nat → ℚ) (rows : List DemoRow) (i : Nat) :
    (imputeHiddenValues fill rows)[i]? = (rows[i]?).map (fun r0 =>
      let r2 :=
        if rowIndicatorSum ⟨r0.zipCode, r0.indicators.map cleanCell⟩ = 0 then
          (⟨r0.zipCode, (r0.indicators.map cleanCell).map (fun c => some (c.getD 0))⟩ : DemoRow)
        else ⟨r0.zipCode, r0.indicators.map cleanCell⟩
      (⟨r2.zipCode, r2.indicators.enum.map (fun q => some (q.2.getD (fill i q.1)))⟩ : DemoRow)) := by
  unfold imputeHiddenValues applyImputer fillZeroRows cleanNegatives
  rw [List.getElem?_map, List.getElem?_enum, List.getElem?_map, List.getElem?_map]
  cases rows[i]? with
  | none => rfl
  | some r0 => rfl

/-- Claim C8: a demographics row whose indicator columns (with negative
sentinels replaced by missing markers, missing values skipped by the pandas
sum) sum to exactly zero has all its missing markers filled with zero and is
still all-zero after the imputation step, whatever the imputer predicts for
the other rows. -/
theorem zero_population_rows (fill : Nat → Nat → ℚ) (rows : List DemoRow) (i : Nat)
    (r0 r1 : DemoRow) (h0 : rows[i]? = some r0)
    (hsum : rowIndicatorSum ⟨r0.zipCode, r0.indicators.map cleanCell⟩ = 0)
    (h1 : (imputeHiddenValues fill rows)[i]? = some r1) :
    allZeroRow r1 = true := by
  rw [imputeHiddenValues_getElem?, h0] at h1
  simp only [Option.map_some', Option.some.injEq] at h1
  subst h1
  simp only [if_pos hsum]
  unfold allZeroRow
  rw [List.all_eq_true]
  intro c hc
  simp only [List.map_map, List.mem_map] at hc
  obtain ⟨q, hq, rfl⟩ := hc
  obtain ⟨c0, hc0, hcq⟩ := List.mem_map.1 (List.snd_mem_of_mem_enum hq)
  -- q.2 = some ((cleanCell c0).getD 0) and that value is 0
  have hval : ∀ w, cleanCell c0 = some w → w = 0 := by
    intro w hw
    refine eq_zero_of_mem_of_sum_eq_zero ((r0.indicators.map cleanCell).filterMap id)
      ?_ hsum w ?_
    · intro x hx
      obtain ⟨cx, hcxmem, hcx⟩ := List.mem_filterMap.1 hx
      obtain ⟨c1, _, rfl⟩ := List.mem_map.1 hcxmem
      simp only [id_eq] at hcx
      exact cleanCell_nonneg c1 x hcx
    · refine List.mem_filterMap.2 ⟨cleanCell c0, List.mem_map_of_mem cleanCell hc0, ?_⟩
      simpa using hw
  simp only [Function.comp_apply] at hcq
  rw [← hcq]
  cases hcl : cleanCell c0 with
  | none => simp [hcl]
  | some w => simp [hcl, hval w hcl]

theorem zero_population_rows_witness :
    c8Rows[0]? = some (⟨21, [some (-2), some 0, none]⟩ : DemoRow) ∧
    rowIndicatorSum ⟨21, ([some (-2), some 0, none] : List (Option ℚ)).map cleanCell⟩ = 0 ∧
    (imputeHiddenValues c8Fill c8Rows)[0]? =
      some (⟨21, [some 0, some 0, some 0]⟩ : DemoRow) ∧
    allZeroRow (⟨21, [some 0, some 0, some 0]⟩ : DemoRow) = true := by
  have h0 : c8Rows[0]? = some (⟨21, [some (-2), some 0, none]⟩ : DemoRow) := rfl
  have hs : rowIndicatorSum
      ⟨21, ([some (-2), some 0, none] : List (Option ℚ)).map cleanCell⟩ = 0 := by
    norm_num [rowIndicatorSum, cleanCell, List.filterMap]
  have h1 : (imputeHiddenValues c8Fill c8Rows)[0]? =
      some (⟨21, [some 0, some 0, some 0]⟩ : DemoRow) := by
    norm_num [imputeHiddenValues, applyImputer, fillZeroRows, cleanNegatives, cleanCell,
      rowIndicatorSum, c8Fill, c8Rows, List.filterMap, List.enum, List.enumFrom]
  exact ⟨h0, hs, h1, zero_population_rows c8Fill c8Rows 0 _ _ h0 hs h1⟩

theorem nodup_sortedDistinct {α : Type} [LinearOrder α] [DecidableEq α] (l : List α) :
    (sortedDistinct l).Nodup :=
  (List.perm_insertionSort _ (dedupKF l)).nodup_iff.2 (nodup_dedupKF l)

theorem map_bikeId_regSteps (ids : List String) (ty : String → Option String) :
    (((((ids.map (fun s => (⟨s, ty s⟩ : BikeReg))).filter
      (fun b => decide (4 ≤ digitCount b.bikeId))).map (fun b =>
        if b.bikeType = none then (⟨b.bikeId, some "classic_bike"⟩ : BikeReg) else b)).map
          (fun b => (⟨b.bikeId, renameBikeType b.bikeType⟩ : BikeReg))).map
            (fun b => b.bikeId)) = ids.filter (fun s => decide (4 ≤ digitCount s)) := by
  induction ids with
  | nil => rfl
  | cons s ids ih =>
    simp only [List.map_cons, List.filter_cons]
    by_cases h : 4 ≤ digitCount s
    · rw [decide_eq_true h, if_pos rfl, if_pos rfl, List.map_cons, List.map_cons,
        List.map_cons, ih]
      split
      · rfl
      · rfl
    · rw [decide_eq_false h, if_neg Bool.false_ne_true, if_neg Bool.false_ne_true]
      exact ih

theorem registryIds_eq (rows : List BikeMention) :
    registryIds rows =
      (sortedDistinct ((dedupKF rows).map (fun r => optStr r.bikeId))).filter
        (fun s => decide (4 ≤ digitCount s)) := by
  have hids : (((dedupKF rows).map
      (fun r => (⟨optStr r.bikeId, r.bikeType⟩ : BikeReg))).map (fun r => r.bikeId)) =
      (dedupKF rows).map (fun r => optStr r.bikeId) := by
    rw [List.map_map]
    rfl
  have key := map_bikeId_regSteps
    (sortedDistinct (((dedupKF rows).map
      (fun r => (⟨optStr r.bikeId, r.bikeType⟩ : BikeReg))).map (fun r => r.bikeId)))
    (fun s => ((((dedupKF rows).map
      (fun r => (⟨optStr r.bikeId, r.bikeType⟩ : BikeReg))).filter
        (fun r => decide (r.bikeId = s))).map (fun r => r.bikeType)).filterMap id |> safeMode)
  rw [← hids]
  exact key

/-- Claim C10 (counterexample): a capital trip row whose bike id is missing
but whose bike type is NaN (or any value other than the three known types)
keeps its missing bike id: the three placeholder masks all require a
matching `bike_type`, so not every row with a missing bike id receives a
placeholder. -/
theorem placeholder_bike_ids_counterexample :
    fillMissingBikeIds [⟨none, none⟩] = [⟨none, none⟩] ∧
    (fillMissingBikeIds [⟨none, none⟩]).all (fun r => r.bikeId = none) = true := by
  constructor
  · rfl
  · rfl

/-- Claim C10 (amended): a capital trip row with a missing bike id and bike
type `classic_bike` / `electric_bike` / `docked_bike` is assigned the fixed
placeholder `0000_classic` / `0000_electric` / `0000_docked`; each
placeholder has exactly 4 digit characters; every filled bike id with at
least 4 digit characters (hence each placeholder) appears in the bike
registry, whose natural ids are pairwise distinct (one registry entry per
id); and the bike-uuid dictionary lookup of
`map_trips_foreign_keys_to_uuids` gives every trip with the same natural
bike id the same surrogate uuid. -/
theorem placeholder_bike_ids_amended :
    (∀ r : BikeMention, r.bikeId = none →
      (r.bikeType = some "classic_bike" →
        fillOneBike r = ⟨some "0000_classic", some "classic_bike"⟩) ∧
      (r.bikeType = some "electric_bike" →
        fillOneBike r = ⟨some "0000_electric", some "electric_bike"⟩) ∧
      (r.bikeType = some "docked_bike" →
        fillOneBike r = ⟨some "0000_docked", some "docked_bike"⟩)) ∧
    (digitCount "0000_classic" = 4 ∧ digitCount "0000_electric" = 4 ∧
      digitCount "0000_docked" = 4) ∧
    (∀ (rows : List BikeMention), ∀ r ∈ fillMissingBikeIds rows, ∀ id0 : String,
      r.bikeId = some id0 → 4 ≤ digitCount id0 →
        id0 ∈ registryIds (fillMissingBikeIds rows)) ∧
    (∀ rows : List BikeMention, (registryIds rows).Nodup) ∧
    (∀ (bkMap : List (String × String)) (k1 k2 : String), k1 = k2 →
      lookupStrKey bkMap k1 = lookupStrKey bkMap k2) := by
  refine ⟨?_, ⟨by decide, by decide, by decide⟩, ?_, ?_, ?_⟩
  · intro r h
    refine ⟨fun ht => ?_, fun ht => ?_, fun ht => ?_⟩
    · simp [fillOneBike, h, ht]
    · simp [fillOneBike, h, ht]
    · simp [fillOneBike, h, ht]
  · intro rows r hr id0 hid hd
    rw [registryIds_eq]
    refine List.mem_filter.2 ⟨?_, decide_eq_true hd⟩
    rw [mem_sortedDistinct]
    refine List.mem_map.2 ⟨r, (mem_dedupKF _ r).2 hr, ?_⟩
    rw [hid]
    rfl
  · intro rows
    rw [registryIds_eq]
    exact (nodup_sortedDistinct _).filter _
  · intro bkMap k1 k2 h
    rw [h]

theorem placeholder_bike_ids_witness :
    (⟨none, some "classic_bike"⟩ : BikeMention).bikeId = none ∧
    fillOneBike ⟨none, some "classic_bike"⟩ = ⟨some "0000_classic", some "classic_bike"⟩ ∧
    (⟨some "0000_classic", some "classic_bike"⟩ : BikeMention) ∈ fillMissingBikeIds c10Rows ∧
    "0000_classic" ∈ registryIds (fillMissingBikeIds c10Rows) := by
  have hmem : (⟨some "0000_classic", some "classic_bike"⟩ : BikeMention) ∈
      fillMissingBikeIds c10Rows := by decide
  exact ⟨rfl,
    (placeholder_bike_ids_amended.1 ⟨none, some "classic_bike"⟩ rfl).1 rfl,
    hmem,
    placeholder_bike_ids_amended.2.2.1 c10Rows _ hmem "0000_classic" rfl (by decide)⟩

theorem safeModeOptQ_eq_of_perm {l₁ l₂ : List (Option ℚ)} (h : l₁.Perm l₂) :
    safeModeOptQ l₁ = safeModeOptQ l₂ :=
  safeMode_eq_of_perm (h.filterMap id)

/-- Claim C5 (amended): the resolved canonical latitude/longitude of a
station natural id is the `safe_mode` of the latitudes/longitudes of the
station's DISTINCT mention rows: `get_metro_unique_stations` drops
duplicate `(id, lat, lon, name)` rows before aggregating, so multiplicity of
repeated identical mentions is discarded, and ties among the remaining
values are broken by `Series.mode()`'s ascending sort (smallest value
first), not by frequency of observation. -/
theorem mode_tie_break_amended (rows : List SRow) (s : Int) (r : SRow)
    (h : lookupStation s (getMetroUniqueStations rows) = some r) :
    r.lat = safeModeOptQ (((dedupKF rows).filter (fun m => decide (m.stationId = s))).map
      (fun m => m.lat)) ∧
    r.lon = safeModeOptQ (((dedupKF rows).filter (fun m => decide (m.stationId = s))).map
      (fun m => m.lon)) := by
  unfold lookupStation getMetroUniqueStations groupAggStations at h
  rw [List.find?_map, Option.map_eq_some'] at h
  obtain ⟨s0, hf, hr⟩ := h
  have hs0 : s0 = s := by simpa using List.find?_some hf
  subst hs0
  subst hr
  have hperm : (sortByStationId (dedupKF rows)).Perm (dedupKF rows) :=
    List.perm_insertionSort _ _
  have hlat : safeModeOptQ (((sortByStationId (dedupKF rows)).filter
      (fun m => decide (m.stationId = s0))).map (fun m => m.lat)) =
      safeModeOptQ (((dedupKF rows).filter (fun m => decide (m.stationId = s0))).map
        (fun m => m.lat)) :=
    safeModeOptQ_eq_of_perm ((hperm.filter _).map _)
  have hlon : safeModeOptQ (((sortByStationId (dedupKF rows)).filter
      (fun m => decide (m.stationId = s0))).map (fun m => m.lon)) =
      safeModeOptQ (((dedupKF rows).filter (fun m => decide (m.stationId = s0))).map
        (fun m => m.lon)) :=
    safeModeOptQ_eq_of_perm ((hperm.filter _).map _)
  exact ⟨hlat, hlon⟩

/-- Claim C5 (counterexample): station 1 is mentioned twice at (2, 2) and
once at (1, 1); the most frequent coordinate among the raw mentions is
(2, 2), but `get_metro_unique_stations` deduplicates the mention rows before
the mode, each distinct reading then occurs once, and the resulting tie is
broken by `Series.mode()`'s ascending sort: the station resolves to (1, 1),
not to the most frequent (2, 2). -/
theorem mode_tie_break_counterexample :
    safeModeOptQ (c5Mentions.map (fun m => m.lat)) = some 2 ∧
    (lookupStation 1 (getMetroUniqueStations c5Mentions)).map (fun r => r.lat) =
      some (some 1) := by
  constructor
  · decide
  · decide

theorem mode_tie_break_witness :
    lookupStation 1 (getMetroUniqueStations c5Mentions) =
      some (⟨1, some 1, some 1, some "A"⟩ : SRow) ∧
    ((⟨1, some 1, some 1, some "A"⟩ : SRow).lat =
      safeModeOptQ (((dedupKF c5Mentions).filter (fun m => decide (m.stationId = 1))).map
        (fun m => m.lat)) ∧
     (⟨1, some 1, some 1, some "A"⟩ : SRow).lon =
      safeModeOptQ (((dedupKF c5Mentions).filter (fun m => decide (m.stationId = 1))).map
        (fun m => m.lon))) := by
  have h : lookupStation 1 (getMetroUniqueStations c5Mentions) =
      some (⟨1, some 1, some 1, some "A"⟩ : SRow) := by decide
  exact ⟨h, mode_tie_break_amended c5Mentions 1 _ h⟩

/-- Claim C4: every row of the feature-engine output of the composed
pipeline (metro trip filtering, foreign-key mapping, feature engineering)
has `start_time` strictly earlier than `end_time`: the trips stage keeps
only rows with `start_time < end_time`, the uuid/foreign-key rewrite
preserves both timestamps, and the feature engine recomputes the duration
from the same timestamps and only filters rows, so the strict ordering
(equivalently, a strictly positive recomputed duration) survives to the
output. -/
theorem temporal_ordering (g : Nat → String) (stMap : List (Int × String))
    (bkMap : List (String × String)) (df : List MetroRawTrip) (stationIds : List Int)
    (bikeIds : List String) (dist : ℚ → ℚ → ℚ → ℚ → ℚ) (stations : List StationCoord) :
    ∀ r ∈ generateTripsFeatureEngineering dist stations
      (mapMetroTripsToCurated g stMap bkMap
        (generateMetroTripsDataframe df stationIds bikeIds)),
      r.startTime < r.endTime := by
  intro r hr
  have hr2 : r ∈ featJoinRows dist stations
      (mapMetroTripsToCurated g stMap bkMap
        (generateMetroTripsDataframe df stationIds bikeIds)) :=
    (List.mem_filter.1 hr).1
  obtain ⟨t, ht, s, e, hs, he, rfl⟩ := mem_featJoinRows.1 hr2
  show t.startTime < t.endTime
  unfold mapMetroTripsToCurated at ht
  obtain ⟨p, hp, rfl⟩ := List.mem_map.1 ht
  show p.2.startTime < p.2.endTime
  have hmem : p.2 ∈ generateMetroTripsDataframe df stationIds bikeIds :=
    List.snd_mem_of_mem_enum hp
  unfold generateMetroTripsDataframe at hmem
  exact of_decide_eq_true (List.mem_filter.1 hmem).2

theorem temporal_ordering_witness :
    (c4Out.getD 0 default) ∈ c4Out ∧
    (c4Out.getD 0 default).startTime < (c4Out.getD 0 default).endTime := by
  have hmem : (c4Out.getD 0 default) ∈ c4Out := by
    norm_num [c4Out, c4Curated, c4Raw, exDist, exStations, generateTripsFeatureEngineering,
      featJoinRows, mapMetroTripsToCurated, generateMetroTripsDataframe, buildFeatTrip,
      findStation, speedKeep, lookupIntKey, lookupStrKey, dedupKF, dedupSeen, List.filterMap,
      List.find?, List.filter, List.enum, List.enumFrom]
  exact ⟨hmem, temporal_ordering (fun _ => "T1") [(1, "S1")] [("1234", "B1")] c4Raw [1]
    ["1234"] exDist exStations _ hmem⟩

theorem enumFrom_map_eq_of_map_eq {α β γ : Type} (f : α → β) (g2 : Nat → β → γ) :
    ∀ (X Y : List α) (n : Nat), X.map f = Y.map f →
      (X.enumFrom n).map (fun p => g2 p.1 (f p.2)) =
        (Y.enumFrom n).map (fun p => g2 p.1 (f p.2))
  | [], [], _, _ => rfl
  | [], y :: Y, n, h => by simp at h
  | x :: X, [], n, h => by simp at h
  | x :: X, y :: Y, n, h => by
    simp only [List.map_cons, List.cons.injEq] at h
    simp only [List.enumFrom, List.map_cons]
    rw [h.1, enumFrom_map_eq_of_map_eq f g2 X Y (n + 1) h.2]

theorem enum_map_eq_of_map_eq {α β γ : Type} (f : α → β) (g2 : Nat → β → γ)
    (X Y : List α) (h : X.map f = Y.map f) :
    X.enum.map (fun p => g2 p.1 (f p.2)) = Y.enum.map (fun p => g2 p.1 (f p.2)) :=
  enumFrom_map_eq_of_map_eq f g2 X Y 0 h

theorem groupAggStations_map_stationId (X : List SRow) :
    (groupAggStations X).map (fun r => r.stationId) =
      sortedDistinct (X.map (fun r => r.stationId)) := by
  unfold groupAggStations
  rw [List.map_map]
  show (sortedDistinct (X.map (fun r => r.stationId))).map (fun s => s) =
    sortedDistinct (X.map (fun r => r.stationId))
  exact List.map_id' _

theorem getMetroUniqueStations_proj_eq_of_perm {m₁ m₂ : List SRow} (h : m₁.Perm m₂) :
    (getMetroUniqueStations m₁).map (fun r => (r.stationId, r.lat, r.lon)) =
      (getMetroUniqueStations m₂).map (fun r => (r.stationId, r.lat, r.lon)) := by
  unfold getMetroUniqueStations groupAggStations
  rw [List.map_map, List.map_map]
  have hrows : (sortByStationId (dedupKF m₁)).Perm (sortByStationId (dedupKF m₂)) :=
    (List.perm_insertionSort _ _).trans ((dedupKF_perm_of_perm h).trans
      (List.perm_insertionSort _ _).symm)
  have hids : sortedDistinct ((sortByStationId (dedupKF m₁)).map (fun r => r.stationId)) =
      sortedDistinct ((sortByStationId (dedupKF m₂)).map (fun r => r.stationId)) :=
    sortedDistinct_eq_of_mem_iff (fun a => (hrows.map (fun r => r.stationId)).mem_iff)
  rw [hids]
  apply List.map_congr_left
  intro s _
  have hgrp : ((sortByStationId (dedupKF m₁)).filter
      (fun r => decide (r.stationId = s))).Perm
      ((sortByStationId (dedupKF m₂)).filter (fun r => decide (r.stationId = s))) :=
    hrows.filter _
  have hlat : safeModeOptQ (((sortByStationId (dedupKF m₁)).filter
      (fun r => decide (r.stationId = s))).map (fun r => r.lat)) =
      safeModeOptQ (((sortByStationId (dedupKF m₂)).filter
        (fun r => decide (r.stationId = s))).map (fun r => r.lat)) :=
    safeModeOptQ_eq_of_perm (hgrp.map _)
  have hlon : safeModeOptQ (((sortByStationId (dedupKF m₁)).filter
      (fun r => decide (r.stationId = s))).map (fun r => r.lon)) =
      safeModeOptQ (((sortByStationId (dedupKF m₂)).filter
        (fun r => decide (r.stationId = s))).map (fun r => r.lon)) :=
    safeModeOptQ_eq_of_perm (hgrp.map _)
  simp only [Function.comp_apply, hlat, hlon]

theorem exists_proj_imp_of_map_eq {X Y : List SRow}
    (h : X.map (fun r => (r.stationId, r.lat, r.lon)) =
      Y.map (fun r => (r.stationId, r.lat, r.lon)))
    (Q : Int × Option ℚ × Option ℚ → Prop) :
    (∃ r ∈ X, Q (r.stationId, r.lat, r.lon)) → (∃ r ∈ Y, Q (r.stationId, r.lat, r.lon)) := by
  rintro ⟨r, hr, hq⟩
  have hmem : (r.stationId, r.lat, r.lon) ∈
      Y.map (fun r => (r.stationId, r.lat, r.lon)) := by
    rw [← h]
    exact List.mem_map_of_mem _ hr
  obtain ⟨r2, hr2, he⟩ := List.mem_map.1 hmem
  refine ⟨r2, hr2, ?_⟩
  rw [he]
  exact hq

theorem mem_combinedStations_ids (t : List TripStationsRow) (a : Int) :
    a ∈ (combinedStations t).map (fun r => r.stationId) ↔
      ∃ r ∈ (getMetroUniqueStations ((dedupKF t).map projStart) ++
          getMetroUniqueStations ((dedupKF t).map projEnd)),
        (r.lat ≠ none ∧ r.lon ≠ none) ∧ r.stationId = a := by
  unfold combinedStations
  simp only [List.mem_map, List.mem_filter, mem_dedupKF, decide_eq_true_eq]
  constructor
  · rintro ⟨r, ⟨hr, hs⟩, ha⟩
    exact ⟨r, hr, hs, ha⟩
  · rintro ⟨r, hr, hs, ha⟩
    exact ⟨r, ⟨hr, hs⟩, ha⟩

theorem combinedStations_ids_eq_of_perm {t₁ t₂ : List TripStationsRow} (h : t₁.Perm t₂) :
    sortedDistinct ((combinedStations t₁).map (fun r => r.stationId)) =
      sortedDistinct ((combinedStations t₂).map (fun r => r.stationId)) := by
  apply sortedDistinct_eq_of_mem_iff
  intro a
  rw [mem_combinedStations_ids, mem_combinedStations_ids]
  have hA := getMetroUniqueStations_proj_eq_of_perm ((dedupKF_perm_of_perm h).map projStart)
  have hB := getMetroUniqueStations_proj_eq_of_perm ((dedupKF_perm_of_perm h).map projEnd)
  have hAB : (getMetroUniqueStations ((dedupKF t₁).map projStart) ++
      getMetroUniqueStations ((dedupKF t₁).map projEnd)).map
        (fun r => (r.stationId, r.lat, r.lon)) =
      (getMetroUniqueStations ((dedupKF t₂).map projStart) ++
        getMetroUniqueStations ((dedupKF t₂).map projEnd)).map
          (fun r => (r.stationId, r.lat, r.lon)) := by
    rw [List.map_append, List.map_append, hA, hB]
  exact ⟨exists_proj_imp_of_map_eq hAB
      (fun p => (p.2.1 ≠ none ∧ p.2.2 ≠ none) ∧ p.1 = a),
    exists_proj_imp_of_map_eq hAB.symm
      (fun p => (p.2.1 ≠ none ∧ p.2.2 ≠ none) ∧ p.1 = a)⟩

theorem metroStationsResolved_ids_eq_of_perm {t₁ t₂ : List TripStationsRow}
    (h : t₁.Perm t₂) :
    (metroStationsResolved t₁).map (fun r => r.stationId) =
      (metroStationsResolved t₂).map (fun r => r.stationId) := by
  unfold metroStationsResolved
  rw [groupAggStations_map_stationId, groupAggStations_map_stationId]
  exact combinedStations_ids_eq_of_perm h

theorem stationPairs_eq_of_ids_eq (g : Nat → String) {X Y : List SRow}
    (h : X.map (fun r => r.stationId) = Y.map (fun r => r.stationId)) :
    X.enum.map (fun p => (p.2.stationId, g p.1)) =
      Y.enum.map (fun p => (p.2.stationId, g p.1)) :=
  enum_map_eq_of_map_eq (fun r : SRow => r.stationId) (fun i v => (v, g i)) X Y h

theorem bikePairs_eq_of_ids_eq (g : Nat → String) {X Y : List BikeReg}
    (h : X.map (fun b => b.bikeId) = Y.map (fun b => b.bikeId)) :
    X.enum.map (fun p => (p.2.bikeId, g p.1)) =
      Y.enum.map (fun p => (p.2.bikeId, g p.1)) :=
  enum_map_eq_of_map_eq (fun b : BikeReg => b.bikeId) (fun i v => (v, g i)) X Y h

theorem metroStationUuidAssignment_eq_enum (g : Nat → String)
    (zipOf : Option ℚ → Option ℚ → Option String) (t : List TripStationsRow) :
    metroStationUuidAssignment g zipOf t =
      ((metroStationsResolved t).map (rectifySRow cityLatLA cityLonLA)).enum.map
        (fun p => (p.2.stationId, g p.1)) := by
  unfold metroStationUuidAssignment generateMetroStationsDataframe
  rw [List.map_map]
  exact List.map_congr_left (fun p _ => rfl)

theorem metroStationUuidAssignment_eq_of_perm (g : Nat → String)
    (zipOf : Option ℚ → Option ℚ → Option String) {t₁ t₂ : List TripStationsRow}
    (h : t₁.Perm t₂) :
    metroStationUuidAssignment g zipOf t₁ = metroStationUuidAssignment g zipOf t₂ := by
  rw [metroStationUuidAssignment_eq_enum, metroStationUuidAssignment_eq_enum]
  apply stationPairs_eq_of_ids_eq
  rw [List.map_map, List.map_map]
  have hrect : ∀ (X : List SRow), X.map ((fun r : SRow => r.stationId) ∘
      rectifySRow cityLatLA cityLonLA) = X.map (fun r => r.stationId) :=
    fun X => List.map_congr_left (fun r _ => rfl)
  rw [hrect, hrect]
  exact metroStationsResolved_ids_eq_of_perm h

theorem capitalBikeUuidAssignment_eq_enum (g : Nat → String) (rows : List BikeMention) :
    capitalBikeUuidAssignment g rows =
      (capitalBikesRegistry rows).enum.map (fun p => (p.2.bikeId, g p.1)) := rfl

theorem capitalBikeUuidAssignment_eq_of_perm (g : Nat → String)
    {b₁ b₂ : List BikeMention} (h : b₁.Perm b₂) :
    capitalBikeUuidAssignment g b₁ = capitalBikeUuidAssignment g b₂ := by
  have hids : (capitalBikesRegistry b₁).map (fun b => b.bikeId) =
      (capitalBikesRegistry b₂).map (fun b => b.bikeId) := by
    show registryIds b₁ = registryIds b₂
    rw [registryIds_eq, registryIds_eq]
    congr 1
    apply sortedDistinct_eq_of_mem_iff
    intro a
    exact ((dedupKF_perm_of_perm h).map _).mem_iff
  rw [capitalBikeUuidAssignment_eq_enum, capitalBikeUuidAssignment_eq_enum]
  exact bikePairs_eq_of_ids_eq g hids

/-- Claim C6: station and bike entity resolution is deterministic and
grouping-order-independent.  The embedding is a pure function of the seeded
uuid stream and the input, so re-running on identical input reproduces the
ids byte for byte; beyond that, for ANY permutation of the input rows (in
particular any reordering of rows that map to the same natural id) the
natural-id-to-surrogate-uuid assignment of the metro station resolution and
of the capital bike registry is unchanged: group keys are sorted, the mode
aggregation is order-independent, and uuids are handed out positionally
along the sorted keys. -/
theorem surrogate_id_determinism (g gb : Nat → String)
    (zipOf : Option ℚ → Option ℚ → Option String)
    (l₁ l₂ : List TripStationsRow) (b₁ b₂ : List BikeMention)
    (hs : l₁.Perm l₂) (hb : b₁.Perm b₂) :
    metroStationUuidAssignment g zipOf l₁ = metroStationUuidAssignment g zipOf l₂ ∧
    capitalBikeUuidAssignment gb b₁ = capitalBikeUuidAssignment gb b₂ :=
  ⟨metroStationUuidAssignment_eq_of_perm g zipOf hs,
    capitalBikeUuidAssignment_eq_of_perm gb hb⟩

theorem surrogate_id_determinism_witness :
    c6TripsA.Perm c6TripsB ∧ c6BikesA.Perm c6BikesB ∧
    metroStationUuidAssignment c6Stream c6Zip c6TripsA =
      metroStationUuidAssignment c6Stream c6Zip c6TripsB ∧
    capitalBikeUuidAssignment c6Stream c6BikesA =
      capitalBikeUuidAssignment c6Stream c6BikesB := by
  have h1 : c6TripsA.Perm c6TripsB := by decide
  have h2 : c6BikesA.Perm c6BikesB := by decide
  obtain ⟨hs, hb⟩ :=
    surrogate_id_determinism c6Stream c6Stream c6Zip c6TripsA c6TripsB c6BikesA c6BikesB h1 h2
  exact ⟨h1, h2, hs, hb⟩

theorem sorted_getD_le (s : List ℚ) (hsort : s.Sorted (fun a b => a ≤ b)) (i j : Nat)
    (hij : i ≤ j) (hj : j < s.length) : s.getD i 0 ≤ s.getD j 0 := by
  have hi : i < s.length := Nat.lt_of_le_of_lt hij hj
  rw [List.getD_eq_getElem s 0 hi, List.getD_eq_getElem s 0 hj]
  rcases Nat.lt_or_ge i j with hlt | hge
  · have h := List.Sorted.rel_get_of_lt hsort
      (show (⟨i, hi⟩ : Fin s.length) < ⟨j, hj⟩ from hlt)
    simpa using h
  · have heq : i = j := le_antisymm hij hge
    subst heq
    exact le_refl _

theorem medianOfSorted_char (s : List ℚ) (m : ℚ) (h : medianOfSorted s = some m) :
    s.length ≠ 0 ∧
      ((s.length % 2 = 1 ∧ m = s.getD (s.length / 2) 0) ∨
        (s.length % 2 = 0 ∧
          m = (s.getD (s.length / 2 - 1) 0 + s.getD (s.length / 2) 0) / 2)) := by
  unfold medianOfSorted at h
  by_cases h0 : s.length = 0
  · rw [if_pos h0] at h
    exact absurd h (by simp)
  · rw [if_neg h0] at h
    refine ⟨h0, ?_⟩
    by_cases h1 : s.length % 2 = 1
    · rw [if_pos h1] at h
      simp only [Option.some.injEq] at h
      exact Or.inl ⟨h1, h.symm⟩
    · rw [if_neg h1] at h
      simp only [Option.some.injEq] at h
      exact Or.inr ⟨by omega, h.symm⟩

theorem length_insert_middle (s : List ℚ) (m : ℚ) (k : Nat) (hk : k ≤ s.length) :
    (s.take k ++ m :: s.drop k).length = s.length + 1 := by
  simp only [List.length_append, List.length_take, List.length_cons, List.length_drop]
  omega

theorem getD_insert_middle_self (s : List ℚ) (m : ℚ) (k : Nat) (hk : k ≤ s.length) :
    (s.take k ++ m :: s.drop k).getD k 0 = m := by
  have hlen := length_insert_middle s m k hk
  have hklt : k < (s.take k ++ m :: s.drop k).length := by omega
  rw [List.getD_eq_getElem _ 0 hklt]
  have htk : (s.take k).length = k := by
    simp [List.length_take]
    omega
  rw [List.getElem_append_right (show (s.take k).length ≤ k from htk.le)]
  simp [htk]

theorem getD_insert_middle_succ (s : List ℚ) (m : ℚ) (k : Nat) (hk : k < s.length) :
    (s.take k ++ m :: s.drop k).getD (k + 1) 0 = s.getD k 0 := by
  have hlen := length_insert_middle s m k (le_of_lt hk)
  have hklt : k + 1 < (s.take k ++ m :: s.drop k).length := by omega
  rw [List.getD_eq_getElem _ 0 hklt]
  have htk : (s.take k).length = k := by
    simp [List.length_take]
    omega
  rw [List.getElem_append_right (show (s.take k).length ≤ k + 1 by omega)]
  have h1 : k + 1 - (s.take k).length = 1 := by omega
  rw [List.getD_eq_getElem s 0 hk]
  simp only [htk, h1, List.getElem_cons_succ, List.getElem_drop]
  simp

theorem medianOfSorted_insert_middle (s : List ℚ) (m : ℚ)
    (hmed : medianOfSorted s = some m) :
    medianOfSorted (s.take (s.length / 2) ++ m :: s.drop (s.length / 2)) = some m := by
  obtain ⟨hne, hchar⟩ := medianOfSorted_char s m hmed
  have hk : s.length / 2 ≤ s.length := Nat.div_le_self _ _
  have hklt : s.length / 2 < s.length :=
    Nat.div_lt_self (Nat.pos_of_ne_zero hne) one_lt_two
  have hlen := length_insert_middle s m (s.length / 2) hk
  unfold medianOfSorted
  rw [hlen]
  rcases hchar with ⟨hodd, hm⟩ | ⟨heven, hm⟩
  · rw [if_neg (by omega), if_neg (by omega)]
    have hi1 : (s.length + 1) / 2 - 1 = s.length / 2 := by omega
    have hi2 : (s.length + 1) / 2 = s.length / 2 + 1 := by omega
    rw [hi1, hi2, getD_insert_middle_self s m _ hk, getD_insert_middle_succ s m _ hklt,
      ← hm]
    congr 1
    ring
  · rw [if_neg (by omega), if_pos (by omega)]
    have hi : (s.length + 1) / 2 = s.length / 2 := by omega
    rw [hi, getD_insert_middle_self s m _ hk]

theorem sorted_insert_middle (s : List ℚ) (m : ℚ)
    (hsort : s.Sorted (fun a b => a ≤ b)) (hmed : medianOfSorted s = some m) :
    (s.take (s.length / 2) ++ m :: s.drop (s.length / 2)).Sorted (fun a b => a ≤ b) := by
  obtain ⟨hne, hchar⟩ := medianOfSorted_char s m hmed
  have hklt : s.length / 2 < s.length :=
    Nat.div_lt_self (Nat.pos_of_ne_zero hne) one_lt_two
  have hkm : ∀ i, i < s.length / 2 → s.getD i 0 ≤ m := by
    intro i hi
    rcases hchar with ⟨hodd, hm⟩ | ⟨heven, hm⟩
    · rw [hm]
      exact sorted_getD_le s hsort i (s.length / 2) (le_of_lt hi) hklt
    · have hk1 : 1 ≤ s.length / 2 := by omega
      have hle1 : s.getD i 0 ≤ s.getD (s.length / 2 - 1) 0 :=
        sorted_getD_le s hsort i (s.length / 2 - 1) (by omega) (by omega)
      have hle2 : s.getD (s.length / 2 - 1) 0 ≤ s.getD (s.length / 2) 0 :=
        sorted_getD_le s hsort (s.length / 2 - 1) (s.length / 2) (by omega) hklt
      rw [hm]
      linarith
  have hmk : ∀ j, s.length / 2 ≤ j → j < s.length → m ≤ s.getD j 0 := by
    intro j hj hjlt
    rcases hchar with ⟨hodd, hm⟩ | ⟨heven, hm⟩
    · rw [hm]
      exact sorted_getD_le s hsort (s.length / 2) j hj hjlt
    · have hle1 : s.getD (s.length / 2 - 1) 0 ≤ s.getD (s.length / 2) 0 :=
        sorted_getD_le s hsort (s.length / 2 - 1) (s.length / 2) (by omega) hklt
      have hle2 : s.getD (s.length / 2) 0 ≤ s.getD j 0 :=
        sorted_getD_le s hsort (s.length / 2) j hj hjlt
      rw [hm]
      linarith
  have htake : ∀ a ∈ s.take (s.length / 2), a ≤ m := by
    intro a ha
    obtain ⟨i, hi, hieq⟩ := List.getElem_of_mem ha
    have hi2 : i < s.length / 2 := by
      have := hi
      rw [List.length_take] at this
      omega
    have hi3 : i < s.length := Nat.lt_trans hi2 hklt
    rw [List.getElem_take] at hieq
    rw [← hieq, ← List.getD_eq_getElem s 0 hi3]
    exact hkm i hi2
  have hdrop : ∀ b ∈ s.drop (s.length / 2), m ≤ b := by
    intro b hb
    obtain ⟨j, hj, hjeq⟩ := List.getElem_of_mem hb
    rw [List.getElem_drop] at hjeq
    have hj2 : s.length / 2 + j < s.length := by
      have := hj
      rw [List.length_drop] at this
      omega
    rw [← hjeq, ← List.getD_eq_getElem s 0 hj2]
    exact hmk (s.length / 2 + j) (by omega) hj2
  rw [List.Sorted, List.pairwise_append]
  refine ⟨hsort.sublist (List.take_sublist _ _), ?_, ?_⟩
  · rw [List.pairwise_cons]
    exact ⟨hdrop, hsort.sublist (List.drop_sublist _ _)⟩
  · intro a ha b hb
    rcases List.mem_cons.1 hb with rfl | hb2
    · exact htake a ha
    · exact le_trans (htake a ha) (hdrop b hb2)

theorem pandasMedian_eq_medianOfSorted {l t : List ℚ}
    (hsort : t.Sorted (fun a b => a ≤ b)) (hperm : l.Perm t) :
    pandasMedian l = medianOfSorted t := by
  unfold pandasMedian
  exact congrArg medianOfSorted (List.eq_of_perm_of_sorted
    ((List.perm_insertionSort _ l).trans hperm) (List.sorted_insertionSort _ l) hsort)

theorem pandasMedian_append_self (l : List ℚ) (m : ℚ) (h : pandasMedian l = some m) :
    pandasMedian (l ++ [m]) = some m := by
  have hsorts : (l.insertionSort (fun a b => a ≤ b)).Sorted (fun a b => a ≤ b) :=
    List.sorted_insertionSort _ l
  have hmed : medianOfSorted (l.insertionSort (fun a b => a ≤ b)) = some m := h
  have hperm : (l ++ [m]).Perm
      ((l.insertionSort (fun a b => a ≤ b)).take
        ((l.insertionSort (fun a b => a ≤ b)).length / 2) ++
        m :: (l.insertionSort (fun a b => a ≤ b)).drop
          ((l.insertionSort (fun a b => a ≤ b)).length / 2)) := by
    refine (((List.perm_insertionSort (fun a b => a ≤ b) l).symm.append_right [m]).trans
      (List.perm_append_singleton m _)).trans ?_
    conv =>
      lhs
      rw [← List.take_append_drop
        ((l.insertionSort (fun a b => a ≤ b)).length / 2) (l.insertionSort (fun a b => a ≤ b))]
    exact List.perm_middle.symm
  rw [pandasMedian_eq_medianOfSorted (sorted_insert_middle _ m hsorts hmed) hperm]
  exact medianOfSorted_insert_middle _ m hmed

theorem pandasMedian_append_replicate (l : List ℚ) (m : ℚ)
    (h : pandasMedian l = some m) :
    ∀ k, pandasMedian (l ++ List.replicate k m) = some m
  | 0 => by simpa using h
  | k + 1 => by
    rw [List.replicate_succ' k m, ← List.append_assoc]
    exact pandasMedian_append_self _ m (pandasMedian_append_replicate l m h k)

theorem pandasMedian_isSome_of_ne_nil (l : List ℚ) (h : l ≠ []) :
    (pandasMedian l).isSome = true := by
  unfold pandasMedian medianOfSorted
  have hne : (l.insertionSort (fun a b => a ≤ b)).length ≠ 0 := by
    rw [List.length_insertionSort (fun a b => a ≤ b) l]
    simpa using h
  rw [if_neg hne]
  split
  · rfl
  · rfl

theorem colValues_append (X Y : List ZipRow) (c : Nat) :
    colValues (X ++ Y) c = colValues X c ++ colValues Y c :=
  List.filterMap_append X Y _

theorem colValues_const_indicators (ext : List ZipRow) (ind : List ℚ)
    (hext : ∀ r ∈ ext, r.indicators = ind) (c : Nat) (hc : c < ind.length) :
    colValues ext c = List.replicate ext.length (ind.getD c 0) := by
  induction ext with
  | nil => rfl
  | cons r ext ih =>
    have hr : r.indicators = ind := hext r (List.mem_cons_self r ext)
    unfold colValues
    rw [List.filterMap_cons, hr, List.getElem?_eq_getElem hc]
    rw [List.length_cons, List.replicate_succ]
    rw [← List.getD_eq_getElem ind 0 hc]
    exact congrArg (fun t => ind.getD c 0 :: t)
      (ih (fun r2 hr2 => hext r2 (List.mem_cons_of_mem r hr2)))

theorem medianRow_length (w : Nat) (rows : List ZipRow) : (medianRow w rows).length = w := by
  simp [medianRow]

theorem medianRow_getD (w : Nat) (rows : List ZipRow) (c : Nat) (hc : c < w) :
    (medianRow w rows).getD c 0 = (pandasMedian (colValues rows c)).getD 0 := by
  unfold medianRow
  have hlen : c < ((List.range w).map
      (fun c => (pandasMedian (colValues rows c)).getD 0)).length := by
    rw [List.length_map, List.length_range]
    exact hc
  rw [List.getD_eq_getElem _ 0 hlen]
  rw [List.getElem_map]
  rw [List.getElem_range]

theorem medianRow_append_ext (w : Nat) (res ext : List ZipRow)
    (hmed : ∀ c, c < w → (pandasMedian (colValues res c)).isSome = true)
    (hext : ∀ r ∈ ext, r.indicators = medianRow w res) :
    medianRow w (res ++ ext) = medianRow w res := by
  unfold medianRow
  apply List.map_congr_left
  intro c hc
  have hcw : c < w := List.mem_range.1 hc
  obtain ⟨mc, hmc⟩ := Option.isSome_iff_exists.1 (hmed c hcw)
  rw [colValues_append]
  rw [colValues_const_indicators ext (medianRow w res) hext c
    (by rw [medianRow_length]; exact hcw)]
  have hval : (medianRow w res).getD c 0 = mc := by
    rw [medianRow_getD w res c hcw, hmc]
    rfl
  rw [hval, pandasMedian_append_replicate (colValues res c) mc hmc ext.length, hmc]

theorem insertMedianRows_closed_form (w : Nat) (res : List ZipRow)
    (hmed : ∀ c, c < w → (pandasMedian (colValues res c)).isSome = true) :
    ∀ (failed : List Int) (ext : List ZipRow),
      (∀ r ∈ ext, r.indicators = medianRow w res) →
      (failed.foldl (fun acc z => acc ++ [⟨z, medianRow w acc⟩]) (res ++ ext)) =
        (res ++ ext) ++ failed.map (fun z => (⟨z, medianRow w res⟩ : ZipRow))
  | [], ext, hext => by simp
  | z :: failed, ext, hext => by
    rw [List.foldl_cons]
    have hmr : medianRow w (res ++ ext) = medianRow w res :=
      medianRow_append_ext w res ext hmed hext
    rw [hmr, List.append_assoc res ext [(⟨z, medianRow w res⟩ : ZipRow)]]
    rw [insertMedianRows_closed_form w res hmed failed
      (ext ++ [(⟨z, medianRow w res⟩ : ZipRow)]) ?_]
    · simp [List.append_assoc]
    · intro r hr
      rcases List.mem_append.1 hr with hr2 | hr2
      · exact hext r hr2
      · rw [List.mem_singleton.1 hr2]

/-- Claim C9: every postal area whose census query returned no data is
inserted, before imputation, as a row whose every indicator equals the
column-wise median over the postal areas that did return data.  Although the
code recomputes the median inside the loop over the growing dataframe, a
sorted-interpolated median is a fixed point under appending its own value,
so every inserted row still equals the median of the originally resolved
rows. -/
theorem failed_zip_median_insertion (w : Nat) (census : Int → Option (List ℚ))
    (zips : List Int) (hne : resolvedRows census zips ≠ [])
    (hw : (resolvedRows census zips).all (fun r => decide (r.indicators.length = w)) = true) :
    insertMedianRows w (resolvedRows census zips) (failedZipCodes census zips) =
      resolvedRows census zips ++ (failedZipCodes census zips).map
        (fun z => (⟨z, medianRow w (resolvedRows census zips)⟩ : ZipRow)) := by
  have hmed : ∀ c, c < w →
      (pandasMedian (colValues (resolvedRows census zips) c)).isSome = true := by
    intro c hc
    obtain ⟨r, rest, hcons⟩ := List.exists_cons_of_ne_nil hne
    have hrlen : r.indicators.length = w := by
      have hall := List.all_eq_true.1 hw r (by rw [hcons]; exact List.mem_cons_self _ _)
      exact of_decide_eq_true hall
    have hcol : colValues (resolvedRows census zips) c ≠ [] := by
      rw [hcons]
      unfold colValues
      rw [List.filterMap_cons]
      rw [List.getElem?_eq_getElem (show c < r.indicators.length by omega)]
      simp
    exact pandasMedian_isSome_of_ne_nil _ hcol
  have hmain := insertMedianRows_closed_form w (resolvedRows census zips) hmed
    (failedZipCodes census zips) [] (fun r hr => absurd hr (List.not_mem_nil r))
  rw [List.append_nil] at hmain
  exact hmain

theorem failed_zip_median_insertion_witness :
    resolvedRows c9Census c9Zips ≠ [] ∧
    (resolvedRows c9Census c9Zips).all (fun r => decide (r.indicators.length = 2)) = true ∧
    insertMedianRows 2 (resolvedRows c9Census c9Zips) (failedZipCodes c9Census c9Zips) =
      resolvedRows c9Census c9Zips ++ (failedZipCodes c9Census c9Zips).map
        (fun z => (⟨z, medianRow 2 (resolvedRows c9Census c9Zips)⟩ : ZipRow)) := by
  have h1 : resolvedRows c9Census c9Zips ≠ [] := by decide
  have h2 : (resolvedRows c9Census c9Zips).all
      (fun r => decide (r.indicators.length = 2)) = true := by decide
  exact ⟨h1, h2, failed_zip_median_insertion 2 c9Census c9Zips h1 h2⟩
